import Mathlib

/-!
# Shallow embedding of the pgtools CSV import / schema inference core

This file embeds, as executable Lean definitions, the core of the
`pgtools` Python package:

* `pgtools/utils/type_inference.py` (`TypeInference`: column name
  normalization, name-based and sample-based type inference),
* `pgtools/utils/data_converter.py` (`DataConverter.convert_value` and its
  helpers),
* `pgtools/core/schema_generator.py` (`Schema`, `SchemaGenerator.from_labels`),
* `pgtools/core/csv_importer.py` (`CSVImporter._auto_detect_schema`,
  `_load_schema_from_file`, `_add_standard_columns`, `_process_csv_data`,
  `_import_records`, `_create_insert_sql`).

Modelling conventions (documented once here):

* Python `str` is modelled by Lean `String` / `List Char`.  The character
  classes used by the source (`re`'s `\w`, `str.lower`, `str.upper`,
  `str.isdigit`, `str.strip`) are modelled over the ASCII range: the
  repository manipulates SQL identifiers and type names, which are ASCII.
* Python's `int(...)` / `float(...)` literal syntax is modelled by a
  base-10 grammar with optional sign (underscore digit separators and the
  `inf`/`nan` float literals are outside the data handled here and are not
  modelled).
* `datetime.strptime` format cascades are modelled by explicit
  field-by-field parsers (1-4 digit years, 1-2 digit months/days/hours/
  minutes/seconds, with month 1-12, day bounded by the days of the month
  including leap years, hour 0-23, minute/second 0-59).
* `json.loads` is modelled by a structural JSON validity scanner; the
  `json.dumps(json.loads v)` canonical re-serialization of an already
  valid JSON text is abstracted as the identity on that text (no claim in
  this development inspects the re-serialized text).
* Python dicts are modelled by association lists with insert-or-overwrite
  (`dinsert`), which preserves first-insertion order like Python dicts.
* External I/O (database lookups, file handles, wall-clock time) is passed
  in as explicit parameters: the existing table description becomes an
  `Option (List Column)` (`none` models the `except:` branch of a failed
  lookup), and `datetime.now()` becomes a `now` parameter.
-/

namespace PGTools

/-! ## ASCII character model -/

/-- ASCII model of Python `str.isupper` for a single character (`A`-`Z`). -/
def isUpperA (c : Char) : Bool := 65 ≤ c.toNat && c.toNat ≤ 90

/-- ASCII model of a lowercase letter (`a`-`z`). -/
def isLowerA (c : Char) : Bool := 97 ≤ c.toNat && c.toNat ≤ 122

/-- ASCII model of Python `str.isdigit` for a single character (`0`-`9`). -/
def isDigitA (c : Char) : Bool := 48 ≤ c.toNat && c.toNat ≤ 57

/-- ASCII alphanumeric character. -/
def isAlnumA (c : Char) : Bool := isUpperA c || isLowerA c || isDigitA c

/-- ASCII model of the regex class `\w` used in `normalize_column_name`:
alphanumeric or underscore. -/
def isWordA (c : Char) : Bool := isAlnumA c || c = '_'

/-- ASCII whitespace stripped by Python `str.strip()`. -/
def isSpaceA (c : Char) : Bool :=
  c = ' ' || c = '\t' || c = '\n' || c = '\r' || c = '\x0b' || c = '\x0c'

/-- ASCII model of `str.lower` on one character. -/
def lowerA (c : Char) : Char :=
  if isUpperA c then Char.ofNat (c.toNat + 32) else c

/-- ASCII model of `str.upper` on one character. -/
def upperA (c : Char) : Char :=
  if isLowerA c then Char.ofNat (c.toNat - 32) else c

/-! ## List-of-characters string helpers -/

/-- Drop the elements satisfying `p` from both ends (the shape of Python's
`str.strip` family). -/
def trimBy (p : Char → Bool) (l : List Char) : List Char :=
  ((l.dropWhile p).reverse.dropWhile p).reverse

/-- Python `str.strip()` (whitespace on both ends), on character lists. -/
def pyStripL (l : List Char) : List Char := trimBy isSpaceA l

/-- Python `str.strip()` on strings. -/
def pyStrip (s : String) : String := ⟨pyStripL s.data⟩

/-- Python `str.lower()` on strings (ASCII model). -/
def pyLower (s : String) : String := ⟨s.data.map lowerA⟩

/-- Python `str.upper()` on strings (ASCII model). -/
def pyUpper (s : String) : String := ⟨s.data.map upperA⟩

/-- Whether `pat` occurs as a contiguous sublist of `l` (Python's `in` on
strings). -/
def containsSub (l pat : List Char) : Bool :=
  match l with
  | [] => pat.isEmpty
  | _ :: tl => pat.isPrefixOf l || containsSub tl pat

/-- Python `pat in s` for strings. -/
def strContains (s pat : String) : Bool := containsSub s.data pat.data

/-- Python `s.startswith pat`. -/
def strStarts (s pat : String) : Bool := pat.data.isPrefixOf s.data

/-- Python `s.endswith pat`. -/
def strEnds (s pat : String) : Bool := pat.data.reverse.isPrefixOf s.data.reverse

/-- Worker for `collapseRunsBy`: `inRun` records whether the previous
character was part of a run of characters failing `keep` (whose single
`'_'` replacement has already been emitted). -/
def collapseAux (keep : Char → Bool) (inRun : Bool) : List Char → List Char
  | [] => []
  | c :: tl =>
    if keep c then c :: collapseAux keep false tl
    else if inRun then collapseAux keep true tl
    else '_' :: collapseAux keep true tl

/-- Replace every maximal run of characters failing `keep` by a single
underscore. -/
def collapseRunsBy (keep : Char → Bool) (l : List Char) : List Char :=
  collapseAux keep false l

/-- Replace every maximal run of characters failing `isWordA` by a single
underscore: the action of `re.sub(r'[^\w]+', '_', ·)`. -/
def collapseNonWord (l : List Char) : List Char := collapseRunsBy isWordA l

/-- Fuelled worker for `replaceAll`; the fuel is an upper bound on the
number of characters still to scan. -/
def replaceFuel (pat rep : List Char) : Nat → List Char → List Char
  | _, [] => []
  | 0, l => l
  | fuel + 1, c :: tl =>
    if pat ≠ [] && pat.isPrefixOf (c :: tl)
    then rep ++ replaceFuel pat rep fuel ((c :: tl).drop pat.length)
    else c :: replaceFuel pat rep fuel tl

/-- Python `str.replace(pat, rep)`: replace every non-overlapping occurrence
of `pat`, scanning left to right (total; returns the input unchanged when
`pat` is empty, a case the embedded code never exercises). -/
def replaceAll (pat rep l : List Char) : List Char :=
  replaceFuel pat rep l.length l

/-- Python `s.replace(pat, rep)` on strings. -/
def strReplace (s pat rep : String) : String :=
  ⟨replaceAll pat.data rep.data s.data⟩

/-- Split a character list at every occurrence of `sep` (Python
`str.split(sep)` for a one-character separator). -/
def splitChar (sep : Char) : List Char → List (List Char)
  | [] => [[]]
  | c :: tl =>
    match splitChar sep tl with
    | [] => [[c]]
    | h :: t => if c = sep then [] :: h :: t else (c :: h) :: t

/-- Python `s.split(sep)` on strings, one-character separator. -/
def strSplit (s : String) (sep : Char) : List String :=
  (splitChar sep s.data).map (fun l => ⟨l⟩)

/-! ## `TypeInference.normalize_column_name`

Source: `pgtools/utils/type_inference.py`, lines 17-34:
`re.sub(r'[^\w]+', '_', name.strip().lower())`, then `.strip('_')`, then
prefix `col_` when the result starts with a digit, with fallback
`"unnamed_column"`. -/

/-- The `col_`-prefix step: `if normalized and normalized[0].isdigit():
normalized = f"col_{normalized}"`. -/
def normPrefix (stripped : List Char) : List Char :=
  match stripped with
  | [] => []
  | c :: _ => if isDigitA c then "col_".data ++ stripped else stripped

/-- The final fallback: `return normalized or "unnamed_column"`. -/
def normFallback (prefixed : List Char) : String :=
  if prefixed.isEmpty then "unnamed_column" else ⟨prefixed⟩

def normalize_column_name (name : String) : String :=
  normFallback (normPrefix
    (trimBy (fun c => c = '_') (collapseNonWord ((pyStripL name.data).map lowerA))))

/-- The normalization pipeline described by the spec's words for claim C8,
differing from the source only in the collapsing class: a maximal run of
*non-alphanumeric* characters (underscore included) becomes one underscore,
instead of a run of non-`\w` characters (underscore excluded). -/
def specNormalizeAlnum (name : String) : String :=
  normFallback (normPrefix
    (trimBy (fun c => c = '_') (collapseRunsBy isAlnumA ((pyStripL name.data).map lowerA))))

/-- A character allowed in the body of the identifier class
`[a-z_][a-z0-9_]*`. -/
def goodChar (c : Char) : Bool := isLowerA c || isDigitA c || c = '_'

/-- `s` matches the regular expression `[a-z_][a-z0-9_]*` (anchored). -/
def matchesIdent (s : String) : Bool :=
  match s.data with
  | [] => false
  | c :: t => (isLowerA c || c = '_') && t.all goodChar

/-! ### Character-level lemmas -/

theorem toNat_ofNat_of_lt {n : Nat} (h : n < 55296) : (Char.ofNat n).toNat = n := by
  have hv : n.isValidChar := Or.inl h
  rw [Char.ofNat, dif_pos hv]
  simp [Char.ofNatAux, Char.toNat, UInt32.toNat, BitVec.toNat_ofNatLt]

theorem char_toNat_inj {a b : Char} (h : a.toNat = b.toNat) : a = b := by
  have h2 := congrArg Char.ofNat h
  rwa [Char.ofNat_toNat, Char.ofNat_toNat] at h2

theorem toNat_lowerA (c : Char) :
    (lowerA c).toNat = if 65 ≤ c.toNat ∧ c.toNat ≤ 90 then c.toNat + 32 else c.toNat := by
  unfold lowerA isUpperA
  by_cases h : 65 ≤ c.toNat ∧ c.toNat ≤ 90
  · rw [if_pos h]
    have hb : (decide (65 ≤ c.toNat) && decide (c.toNat ≤ 90)) = true := by
      simp [h.1, h.2]
    rw [if_pos hb]
    exact toNat_ofNat_of_lt (by omega)
  · rw [if_neg h]
    rcases Nat.lt_or_ge c.toNat 65 with h1 | h1
    · simp [Nat.not_le.mpr h1]
    · have h2 : ¬ c.toNat ≤ 90 := fun hc => h ⟨h1, hc⟩
      simp [h2]

theorem isUpperA_lowerA (c : Char) : isUpperA (lowerA c) = false := by
  have h := toNat_lowerA c
  unfold isUpperA
  by_cases hc : 65 ≤ c.toNat ∧ c.toNat ≤ 90
  · rw [if_pos hc] at h
    simp only [h, Bool.and_eq_false_iff, decide_eq_false_iff_not, Nat.not_le]
    omega
  · rw [if_neg hc] at h
    rw [h]
    rcases Nat.lt_or_ge c.toNat 65 with h1 | h1
    · simp only [Bool.and_eq_false_iff, decide_eq_false_iff_not, Nat.not_le]
      omega
    · have h2 : ¬ c.toNat ≤ 90 := fun hle => hc ⟨h1, hle⟩
      simp [h2]

/-- A word character that is not an ASCII capital is in `[a-z0-9_]`. -/
theorem goodChar_of_word_not_upper {c : Char} (hw : isWordA c = true)
    (hu : isUpperA c = false) : goodChar c = true := by
  unfold isWordA isAlnumA at hw
  unfold goodChar
  rcases Bool.or_eq_true_iff.mp hw with h | h
  · rcases Bool.or_eq_true_iff.mp h with h1 | h1
    · rcases Bool.or_eq_true_iff.mp h1 with h2 | h2
      · rw [h2] at hu; cases hu
      · simp [h2]
    · simp [h1]
  · simp [h]

theorem goodChar_not_space {c : Char} (h : goodChar c = true) : isSpaceA c = false := by
  unfold goodChar isLowerA isDigitA at h
  unfold isSpaceA
  rcases Bool.or_eq_true_iff.mp h with h1 | h1
  · rcases Bool.or_eq_true_iff.mp h1 with h2 | h2 <;>
    · simp only [Bool.and_eq_true, decide_eq_true_eq] at h2
      simp only [Bool.or_eq_false_iff, decide_eq_false_iff_not]
      refine ⟨⟨⟨⟨⟨?_, ?_⟩, ?_⟩, ?_⟩, ?_⟩, ?_⟩ <;>
        (intro he; rw [he] at h2; revert h2; decide)
  · simp only [decide_eq_true_eq] at h1
    subst h1; decide

theorem goodChar_not_upper {c : Char} (h : goodChar c = true) : isUpperA c = false := by
  unfold goodChar isLowerA isDigitA at h
  unfold isUpperA
  rcases Bool.or_eq_true_iff.mp h with h1 | h1
  · rcases Bool.or_eq_true_iff.mp h1 with h2 | h2 <;>
    · simp only [Bool.and_eq_true, decide_eq_true_eq] at h2
      simp only [Bool.and_eq_false_iff, decide_eq_false_iff_not, Nat.not_le]
      omega
  · simp only [decide_eq_true_eq] at h1
    subst h1; decide

theorem goodChar_word {c : Char} (h : goodChar c = true) : isWordA c = true := by
  unfold goodChar at h
  unfold isWordA isAlnumA
  rcases Bool.or_eq_true_iff.mp h with h1 | h1
  · rcases Bool.or_eq_true_iff.mp h1 with h2 | h2 <;> simp [h2]
  · simp [h1]

theorem lowerA_eq_self {c : Char} (h : isUpperA c = false) : lowerA c = c := by
  unfold lowerA; rw [h]; rfl

/-! ### List-level identities used for idempotence -/

theorem dropWhile_head_not {p : Char → Bool} :
    ∀ {l : List Char} {c : Char} {t : List Char},
      l.dropWhile p = c :: t → p c = false := by
  intro l
  induction l with
  | nil => intro c t h; simp [List.dropWhile] at h
  | cons a tl ih =>
    intro c t h
    rw [List.dropWhile_cons] at h
    by_cases ha : p a = true
    · rw [if_pos ha] at h; exact ih h
    · rw [if_neg ha] at h
      cases h
      exact Bool.not_eq_true _ ▸ ha

theorem dropWhile_eq_self_of_not_head {p : Char → Bool} {l : List Char}
    (h : ∀ c t, l = c :: t → p c = false) : l.dropWhile p = l := by
  cases l with
  | nil => rfl
  | cons a tl => rw [List.dropWhile_cons, if_neg]; simp [h a tl rfl]

theorem mem_trimBy {p : Char → Bool} {l : List Char} {c : Char}
    (h : c ∈ trimBy p l) : c ∈ l := by
  unfold trimBy at h
  rw [List.mem_reverse] at h
  have h1 := (List.dropWhile_sublist p).subset h
  rw [List.mem_reverse] at h1
  exact (List.dropWhile_sublist p).subset h1

theorem trimBy_head_not {p : Char → Bool} {l : List Char} {c : Char} {t : List Char}
    (h : trimBy p l = c :: t) : p c = false := by
  unfold trimBy at h
  set t1 := l.dropWhile p with ht1
  have hsplit := List.takeWhile_append_dropWhile (p := p) (l := t1.reverse)
  have hrev : t1 = (t1.reverse.dropWhile p).reverse ++ (t1.reverse.takeWhile p).reverse := by
    conv_lhs => rw [← List.reverse_reverse t1, ← hsplit]
    rw [List.reverse_append]
  rw [h] at hrev
  have hfinal : l.dropWhile p = c :: (t ++ (t1.reverse.takeWhile p).reverse) := by
    rw [← ht1]; simpa using hrev
  exact dropWhile_head_not hfinal

theorem trimBy_last_not {p : Char → Bool} {l : List Char} {c : Char} {t : List Char}
    (h : (trimBy p l).reverse = c :: t) : p c = false := by
  unfold trimBy at h
  rw [List.reverse_reverse] at h
  exact dropWhile_head_not h

theorem trimBy_eq_self {p : Char → Bool} {l : List Char}
    (hh : ∀ c t, l = c :: t → p c = false)
    (hl : ∀ c t, l.reverse = c :: t → p c = false) : trimBy p l = l := by
  unfold trimBy
  rw [dropWhile_eq_self_of_not_head hh, dropWhile_eq_self_of_not_head hl,
    List.reverse_reverse]

theorem pyStripL_eq_self {l : List Char} (h : ∀ c ∈ l, isSpaceA c = false) :
    pyStripL l = l := by
  unfold pyStripL
  refine trimBy_eq_self ?_ ?_
  · intro c t hct; exact h c (hct ▸ List.mem_cons_self c t)
  · intro c t hct
    refine h c ?_
    rw [← List.mem_reverse, hct]
    exact List.mem_cons_self c t

theorem mem_collapseAux {keep : Char → Bool} {b : Bool} {l : List Char} {c : Char}
    (h : c ∈ collapseAux keep b l) : (c ∈ l ∧ keep c = true) ∨ c = '_' := by
  induction l generalizing b with
  | nil => simp [collapseAux] at h
  | cons a tl ih =>
    unfold collapseAux at h
    by_cases ha : keep a = true
    · rw [if_pos ha] at h
      rcases List.mem_cons.mp h with h1 | h1
      · subst h1; exact Or.inl ⟨List.mem_cons_self _ _, ha⟩
      · rcases ih h1 with ⟨h2, h3⟩ | h2
        · exact Or.inl ⟨List.mem_cons_of_mem _ h2, h3⟩
        · exact Or.inr h2
    · rw [if_neg ha] at h
      by_cases hb : b = true
      · rw [if_pos hb] at h
        rcases ih h with ⟨h2, h3⟩ | h2
        · exact Or.inl ⟨List.mem_cons_of_mem _ h2, h3⟩
        · exact Or.inr h2
      · rw [if_neg hb] at h
        rcases List.mem_cons.mp h with h1 | h1
        · exact Or.inr h1
        · rcases ih h1 with ⟨h2, h3⟩ | h2
          · exact Or.inl ⟨List.mem_cons_of_mem _ h2, h3⟩
          · exact Or.inr h2

theorem collapseAux_eq_self {keep : Char → Bool} {l : List Char}
    (h : ∀ c ∈ l, keep c = true) : collapseAux keep false l = l := by
  induction l with
  | nil => rfl
  | cons a tl ih =>
    unfold collapseAux
    rw [if_pos (h a (List.mem_cons_self _ _))]
    rw [ih (fun c hc => h c (List.mem_cons_of_mem _ hc))]

/-- Executable characterization of `normalize_column_name`'s image:
non-empty, head a lowercase letter, all characters in `[a-z0-9_]`, and no
trailing underscore. -/
def identOkB (l : List Char) : Bool :=
  (match l with | [] => false | c :: _ => isLowerA c) &&
  l.all goodChar &&
  (match l.reverse with | [] => true | c :: _ => !(c = '_'))

theorem isLowerA_ne_underscore {c : Char} (h : isLowerA c = true) : c ≠ '_' := by
  intro he; subst he; revert h; decide

theorem isLowerA_not_digit {c : Char} (h : isLowerA c = true) : isDigitA c = false := by
  unfold isLowerA at h
  unfold isDigitA
  simp only [Bool.and_eq_true, decide_eq_true_eq] at h
  simp only [Bool.and_eq_false_iff, decide_eq_false_iff_not, Nat.not_le]
  omega

theorem map_eq_self_of_eq {l : List Char} {f : Char → Char}
    (h : ∀ c ∈ l, f c = c) : l.map f = l := by
  induction l with
  | nil => rfl
  | cons a tl ih =>
    simp only [List.map_cons, h a (List.mem_cons_self _ _),
      ih (fun c hc => h c (List.mem_cons_of_mem _ hc))]

/-- All characters produced by `normalize_column_name`'s collapse stage are
in the identifier body class. -/
theorem goodChar_of_mem_collapsed {s : String} {c : Char}
    (h : c ∈ collapseNonWord ((pyStripL s.data).map lowerA)) : goodChar c = true := by
  rcases mem_collapseAux h with ⟨hmem, hword⟩ | heq
  · rcases List.mem_map.mp hmem with ⟨d, _, hd⟩
    exact goodChar_of_word_not_upper hword (hd ▸ isUpperA_lowerA d)
  · subst heq; decide

theorem normalize_identOk (s : String) :
    identOkB (normalize_column_name s).data = true := by
  unfold normalize_column_name
  have hAll : ∀ c ∈ trimBy (fun c => c = '_')
      (collapseNonWord ((pyStripL s.data).map lowerA)), goodChar c = true :=
    fun c hc => goodChar_of_mem_collapsed (mem_trimBy hc)
  rcases hstr : trimBy (fun c => c = '_')
      (collapseNonWord ((pyStripL s.data).map lowerA)) with _ | ⟨c, t⟩
  · decide
  · have hgood : goodChar c = true := hAll c (hstr ▸ List.mem_cons_self c t)
    have hne : (decide (c = '_')) = false := trimBy_head_not hstr
    have hne' : c ≠ '_' := by simpa using hne
    have hlast : ∀ c' t', (c :: t).reverse = c' :: t' → (decide (c' = '_')) = false := by
      intro c' t' h'
      exact trimBy_last_not (l := collapseNonWord ((pyStripL s.data).map lowerA))
        (hstr ▸ h')
    have hAllct : ∀ x ∈ c :: t, goodChar x = true := fun x hx => hAll x (hstr ▸ hx)
    rcases hrev : (c :: t).reverse with _ | ⟨c', t'⟩
    · exact absurd hrev (by simp)
    rw [show normPrefix (c :: t)
      = if isDigitA c then "col_".data ++ (c :: t) else (c :: t) from rfl]
    by_cases hd : isDigitA c = true
    · rw [if_pos hd]
      unfold normFallback
      rw [if_neg (by simp)]
      unfold identOkB
      refine Bool.and_eq_true_iff.mpr
        ⟨Bool.and_eq_true_iff.mpr ⟨show isLowerA 'c' = true by decide, ?_⟩, ?_⟩
      · rw [show String.data ⟨"col_".data ++ (c :: t)⟩ = "col_".data ++ (c :: t) from rfl]
        rw [List.all_append]
        refine Bool.and_eq_true_iff.mpr ⟨by decide, ?_⟩
        rw [List.all_eq_true]
        exact hAllct
      · rw [show String.data ⟨"col_".data ++ (c :: t)⟩ = "col_".data ++ (c :: t) from rfl]
        rw [List.reverse_append, hrev]
        simp only [List.cons_append]
        simpa using hlast c' t' hrev
    · rw [if_neg hd]
      unfold normFallback
      rw [if_neg (by simp)]
      unfold identOkB
      have hlow : isLowerA c = true := by
        unfold goodChar at hgood
        rcases Bool.or_eq_true_iff.mp hgood with h1 | h1
        · rcases Bool.or_eq_true_iff.mp h1 with h2 | h2
          · exact h2
          · rw [h2] at hd; exact absurd rfl hd
        · simp only [decide_eq_true_eq] at h1
          exact absurd h1 hne'
      refine Bool.and_eq_true_iff.mpr ⟨Bool.and_eq_true_iff.mpr ⟨hlow, ?_⟩, ?_⟩
      · rw [show String.data ⟨c :: t⟩ = c :: t from rfl, List.all_eq_true]
        exact hAllct
      · rw [show String.data ⟨c :: t⟩ = c :: t from rfl, hrev]
        simpa using hlast c' t' hrev

/-- A list already in `normalize_column_name`'s image shape is a fixed point. -/
theorem normalize_fixed {l : List Char} (h : identOkB l = true) :
    normalize_column_name ⟨l⟩ = ⟨l⟩ := by
  unfold identOkB at h
  cases l with
  | nil => simp at h
  | cons c t =>
    rcases Bool.and_eq_true_iff.mp h with ⟨h12, h3⟩
    rcases Bool.and_eq_true_iff.mp h12 with ⟨h1, h2⟩
    have hgood : ∀ x ∈ c :: t, goodChar x = true := List.all_eq_true.mp h2
    have hlow : isLowerA c = true := h1
    unfold normalize_column_name
    have hstrip : pyStripL (c :: t) = c :: t :=
      pyStripL_eq_self (fun x hx => goodChar_not_space (hgood x hx))
    have hlower : (c :: t).map lowerA = c :: t :=
      map_eq_self_of_eq (fun x hx => lowerA_eq_self (goodChar_not_upper (hgood x hx)))
    have hcollapse : collapseNonWord (c :: t) = c :: t :=
      collapseAux_eq_self (fun x hx => goodChar_word (hgood x hx))
    have htrim : trimBy (fun x => x = '_') (c :: t) = c :: t := by
      refine trimBy_eq_self ?_ ?_
      · intro c' t' h'
        have hcc : c' = c := by rw [List.cons_eq_cons] at h'; exact h'.1.symm
        subst hcc
        exact decide_eq_false (isLowerA_ne_underscore hlow)
      · intro c' t' h'
        rw [h'] at h3
        simpa using h3
    rw [show String.data ⟨c :: t⟩ = c :: t from rfl, hstrip, hlower, hcollapse, htrim]
    rw [show normPrefix (c :: t)
      = if isDigitA c then "col_".data ++ (c :: t) else (c :: t) from rfl]
    rw [if_neg (by simp [isLowerA_not_digit hlow])]
    unfold normFallback
    rw [if_neg (by simp)]

/-! ### Claims C8 and C9 -/

/-- C8 (amended): for every input string, `normalize_column_name` returns a
non-empty identifier matching `[a-z_][a-z0-9_]*` (hence lowercase), obtained
by replacing every maximal run of characters that are neither alphanumeric
nor underscore with a single underscore, lowercasing, stripping leading and
trailing underscores, prefixing `col_` when the result starts with a digit,
and mapping an empty result to the fixed placeholder.  (The construction is
`normalize_column_name`'s definition itself; this theorem proves the stated
invariant of its output.) -/
theorem C8_normalize_ident (s : String) :
    normalize_column_name s ≠ "" ∧ matchesIdent (normalize_column_name s) = true := by
  have h := normalize_identOk s
  constructor
  · intro he
    rw [he] at h
    exact absurd h (by decide)
  · unfold identOkB at h
    unfold matchesIdent
    rcases hl : (normalize_column_name s).data with _ | ⟨c, t⟩
    · rw [hl] at h; simp at h
    · rw [hl] at h
      rcases Bool.and_eq_true_iff.mp h with ⟨h12, _⟩
      rcases Bool.and_eq_true_iff.mp h12 with ⟨h1, h2⟩
      have h2' := List.all_eq_true.mp h2
      refine Bool.and_eq_true_iff.mpr ⟨Bool.or_eq_true_iff.mpr (Or.inl h1), ?_⟩
      exact List.all_eq_true.mpr (fun x hx => h2' x (List.mem_cons_of_mem _ hx))

/-- C8 counterexample: the claim describes the collapsing step as replacing
maximal runs of *non-alphanumeric* characters by one underscore, which would
send `"a__b"` to `"a_b"`; the code's `re.sub(r'[^\w]+', '_', ·)` treats the
underscore as a word character and leaves `"a__b"` unchanged. -/
theorem C8_counterexample :
    normalize_column_name "a__b" = "a__b" ∧ specNormalizeAlnum "a__b" = "a_b" ∧
      normalize_column_name "a__b" ≠ specNormalizeAlnum "a__b" := by
  refine ⟨by decide, by decide, by decide⟩

/-- C9: column-name normalization is idempotent:
`normalize_column_name (normalize_column_name s) = normalize_column_name s`. -/
theorem C9_normalize_idempotent (s : String) :
    normalize_column_name (normalize_column_name s) = normalize_column_name s :=
  normalize_fixed (normalize_identOk s)

/-! ## Numeric literal parsers (models of Python `int(...)` / `float(...)`) -/

/-- Value of a list of ASCII digits, most significant first. -/
def digitsVal (l : List Char) : Nat :=
  l.foldl (fun a c => a * 10 + (c.toNat - 48)) 0

/-- Python `int(value)` on an already-stripped string: optional sign then a
non-empty run of decimal digits. -/
def pyIntParse (l : List Char) : Option Int :=
  match l with
  | '+' :: rest =>
    if rest ≠ [] && rest.all isDigitA then some (digitsVal rest) else none
  | '-' :: rest =>
    if rest ≠ [] && rest.all isDigitA then some (-(digitsVal rest : Int)) else none
  | _ =>
    if l ≠ [] && l.all isDigitA then some (digitsVal l) else none

/-- Split a float literal at the first exponent marker `e`/`E`, if any. -/
def splitExpMark (l : List Char) : List Char × Option (List Char) :=
  match l.dropWhile (fun c => !(c = 'e' || c = 'E')) with
  | [] => (l, none)
  | _ :: es => (l.takeWhile (fun c => !(c = 'e' || c = 'E')), some es)

/-- Consume an optional leading sign, returning it as `1` or `-1`. -/
def parseSign (l : List Char) : Int × List Char :=
  match l with
  | '+' :: tl => (1, tl)
  | '-' :: tl => (-1, tl)
  | _ => (1, l)

/-- Mantissa of a float literal: `digits [. digits]` or `. digits` or
`digits .`; returns the scaled numerator and the count of fraction digits. -/
def parseMant (l : List Char) : Option (Nat × Nat) :=
  match l.dropWhile isDigitA with
  | [] => if l ≠ [] then some (digitsVal l, 0) else none
  | '.' :: fp =>
    let ip := l.takeWhile isDigitA
    if fp.all isDigitA && (ip ≠ [] || fp ≠ [])
    then some (digitsVal ip * 10 ^ fp.length + digitsVal fp, fp.length)
    else none
  | _ => none

/-- Exponent of a float literal: optional sign then non-empty digits. -/
def parseExpPart (l : List Char) : Option Int :=
  let (sgn, l1) := parseSign l
  if l1 ≠ [] && l1.all isDigitA then some (sgn * digitsVal l1) else none

/-- An exact decimal: the value is `num * 10 ^ exp10`.  (Python's `float`
is IEEE 754; no claim in this development inspects the rounded value, so
the exact decimal stands in for it.) -/
structure PyFloat where
  num : Int
  exp10 : Int
  deriving DecidableEq, Repr

/-- Python `float(value)` on an already-stripped string. -/
def pyFloatParse (l : List Char) : Option PyFloat :=
  let (sgn, l1) := parseSign l
  let (mant, expPart) := splitExpMark l1
  match parseMant mant with
  | none => none
  | some (m, fd) =>
    match expPart with
    | none => some ⟨sgn * m, -(fd : Int)⟩
    | some es =>
      match parseExpPart es with
      | none => none
      | some e => some ⟨sgn * m, e - (fd : Int)⟩

/-! ## `datetime.strptime` format cascade models

CPython's `%Y` matches exactly four digits (and the year must be at least
1); `%m`, `%d`, `%H`, `%M`, `%S` match one or two digits, range-checked
(day against the real calendar, leap years included). -/

def daysInMonth (y m : Nat) : Nat :=
  if m = 2 then
    if (y % 4 = 0 && ¬ y % 100 = 0) || y % 400 = 0 then 29 else 28
  else if m = 4 || m = 6 || m = 9 || m = 11 then 30 else 31

def validYMD (y m d : Nat) : Bool :=
  1 ≤ y && 1 ≤ m && m ≤ 12 && 1 ≤ d && d ≤ daysInMonth y m

/-- Scan a field of one or two digits. -/
def scanNum2 (l : List Char) : Option (Nat × List Char) :=
  let ds := l.takeWhile isDigitA
  if ds.length = 1 || ds.length = 2
  then some (digitsVal ds, l.dropWhile isDigitA) else none

/-- Scan a field of exactly four digits (CPython's `%Y`). -/
def scanYear (l : List Char) : Option (Nat × List Char) :=
  match l with
  | a :: b :: c :: d :: rest =>
    if isDigitA a && isDigitA b && isDigitA c && isDigitA d
    then some (digitsVal [a, b, c, d], rest) else none
  | _ => none

/-- Scan one expected literal character. -/
def scanLit (ch : Char) (l : List Char) : Option (List Char) :=
  match l with
  | c :: tl => if c = ch then some tl else none
  | [] => none

/-- `%Y<sep>%m<sep>%d` (whole input). -/
def parseYMDFull (sep : Char) (l : List Char) : Option (Nat × Nat × Nat) := do
  let (y, r1) ← scanYear l
  let r2 ← scanLit sep r1
  let (m, r3) ← scanNum2 r2
  let r4 ← scanLit sep r3
  let (d, r5) ← scanNum2 r4
  if r5 = [] && validYMD y m d then some (y, m, d) else none

/-- `%m/%d/%Y` (whole input). -/
def parseMDYFull (l : List Char) : Option (Nat × Nat × Nat) := do
  let (m, r1) ← scanNum2 l
  let r2 ← scanLit '/' r1
  let (d, r3) ← scanNum2 r2
  let r4 ← scanLit '/' r3
  let (y, r5) ← scanYear r4
  if r5 = [] && validYMD y m d then some (y, m, d) else none

/-- `%d/%m/%Y` (whole input). -/
def parseDMYFull (l : List Char) : Option (Nat × Nat × Nat) := do
  let (d, r1) ← scanNum2 l
  let r2 ← scanLit '/' r1
  let (m, r3) ← scanNum2 r2
  let r4 ← scanLit '/' r3
  let (y, r5) ← scanYear r4
  if r5 = [] && validYMD y m d then some (y, m, d) else none

/-- `%Y-%m` (whole input, day defaults to 1). -/
def parseYMFull (l : List Char) : Option (Nat × Nat × Nat) := do
  let (y, r1) ← scanYear l
  let r2 ← scanLit '-' r1
  let (m, r3) ← scanNum2 r2
  if r3 = [] && validYMD y m 1 then some (y, m, 1) else none

/-- `%Y` (whole input, month and day default to 1). -/
def parseYFull (l : List Char) : Option (Nat × Nat × Nat) := do
  let (y, r1) ← scanYear l
  if r1 = [] && 1 ≤ y then some (y, 1, 1) else none

/-- `%H:%M[:%S]` (whole input). -/
def parseTimeFull (withSec : Bool) (l : List Char) : Option (Nat × Nat × Nat) := do
  let (h, r1) ← scanNum2 l
  let r2 ← scanLit ':' r1
  let (mi, r3) ← scanNum2 r2
  if withSec then
    let r4 ← scanLit ':' r3
    let (s, r5) ← scanNum2 r4
    if r5 = [] && h ≤ 23 && mi ≤ 59 && s ≤ 59 then some (h, mi, s) else none
  else
    if r3 = [] && h ≤ 23 && mi ≤ 59 then some (h, mi, 0) else none

/-- The six-component timestamp produced by the `%Y.%m.%d %H:%M:%S`-style
formats: `(year, month, day, hour, minute, second)`. -/
abbrev DateTime6 := Nat × Nat × Nat × Nat × Nat × Nat

/-- `%Y<sep>%m<sep>%d %H:%M[:%S]`, or the bare date when `time?` is
`none`. -/
def parseDTFull (sep : Char) (time? : Option Bool) (l : List Char) :
    Option DateTime6 :=
  match time? with
  | none => (parseYMDFull sep l).map (fun (y, m, d) => (y, m, d, 0, 0, 0))
  | some withSec =>
    let dpart := l.takeWhile (fun c => !(c = ' '))
    match l.dropWhile (fun c => !(c = ' ')) with
    | ' ' :: tpart => do
      let (y, m, d) ← parseYMDFull sep dpart
      let (h, mi, s) ← parseTimeFull withSec tpart
      some (y, m, d, h, mi, s)
    | _ => none

/-- The `TypeInference._is_date_like` cascade
(`%Y-%m-%d, %Y/%m/%d, %m/%d/%Y, %d/%m/%Y, %Y-%m, %Y`). -/
def is_date_like (v : String) : Bool :=
  (parseYMDFull '-' v.data).isSome || (parseYMDFull '/' v.data).isSome ||
  (parseMDYFull v.data).isSome || (parseDMYFull v.data).isSome ||
  (parseYMFull v.data).isSome || (parseYFull v.data).isSome

/-! ## JSON validity scanner (model of `json.loads` success) -/

/-- Skip JSON whitespace. -/
def jsonWs (l : List Char) : List Char :=
  l.dropWhile (fun c => c = ' ' || c = '\t' || c = '\n' || c = '\r')

/-- One to four hex digits check used by `\uXXXX` escapes. -/
def isHexA (c : Char) : Bool :=
  isDigitA c || (97 ≤ c.toNat && c.toNat ≤ 102) || (65 ≤ c.toNat && c.toNat ≤ 70)

/-- Scan a JSON string body after the opening quote; returns the remainder
after the closing quote. -/
def jsonStr : List Char → Option (List Char)
  | [] => none
  | '"' :: tl => some tl
  | '\\' :: e :: tl =>
    if e = '"' || e = '\\' || e = '/' || e = 'b' || e = 'f' ||
       e = 'n' || e = 'r' || e = 't' then jsonStr tl
    else if e = 'u' then
      match tl with
      | a :: b :: c :: d :: rest =>
        if isHexA a && isHexA b && isHexA c && isHexA d then jsonStr rest else none
      | _ => none
    else none
  | c :: tl => if c.toNat < 32 then none else jsonStr tl

/-- Scan a JSON number starting at a digit or `-`. -/
def jsonNum (l : List Char) : Option (List Char) :=
  let l1 := match l with | '-' :: tl => tl | _ => l
  let ip := l1.takeWhile isDigitA
  let r1 := l1.dropWhile isDigitA
  if ip = [] then none
  else if ip.length > 1 && ip.headD '0' = '0' then none
  else
    let r2 := match r1 with
      | '.' :: tl =>
        if (tl.takeWhile isDigitA) = [] then none
        else some (tl.dropWhile isDigitA)
      | _ => some r1
    match r2 with
    | none => none
    | some r3 =>
      match r3 with
      | e :: tl =>
        if e = 'e' || e = 'E' then
          let (_, tl2) := parseSign tl
          if (tl2.takeWhile isDigitA) = [] then none
          else some (tl2.dropWhile isDigitA)
        else some r3
      | [] => some r3

/-- One fuelled recursive-descent scanner for JSON values.  `mode 0` scans
one value, `mode 1` scans object members (`string : value (, ...)* }`),
`mode 2` scans array items (`value (, ...)* ]`). -/
def jsonScan : Nat → Nat → List Char → Option (List Char)
  | _, 0, _ => none
  | 0, fuel + 1, l =>
    (match jsonWs l with
     | 't' :: 'r' :: 'u' :: 'e' :: tl => some tl
     | 'f' :: 'a' :: 'l' :: 's' :: 'e' :: tl => some tl
     | 'n' :: 'u' :: 'l' :: 'l' :: tl => some tl
     | '"' :: tl => jsonStr tl
     | '\x7b' :: tl =>
       (match jsonWs tl with
        | '\x7d' :: tl2 => some tl2
        | _ => jsonScan 1 fuel tl)
     | '[' :: tl =>
       (match jsonWs tl with
        | ']' :: tl2 => some tl2
        | _ => jsonScan 2 fuel tl)
     | rest => jsonNum rest)
  | 1, fuel + 1, l =>
    (match jsonWs l with
     | '"' :: tl =>
       (match jsonStr tl with
        | none => none
        | some r1 =>
          match jsonWs r1 with
          | ':' :: r2 =>
            (match jsonScan 0 fuel r2 with
             | none => none
             | some r3 =>
               match jsonWs r3 with
               | ',' :: tl2 => jsonScan 1 fuel tl2
               | '\x7d' :: tl2 => some tl2
               | _ => none)
          | _ => none)
     | _ => none)
  | _, fuel + 1, l =>
    (match jsonScan 0 fuel l with
     | none => none
     | some r1 =>
       match jsonWs r1 with
       | ',' :: tl => jsonScan 2 fuel tl
       | ']' :: tl => some tl
       | _ => none)

/-- Success of Python `json.loads` (structural model; the lenient
`NaN`/`Infinity` extensions are not exercised by this code base). -/
def jsonParseOk (v : String) : Bool :=
  match jsonScan 0 (v.data.length + 1) v.data with
  | some rest => jsonWs rest = []
  | none => false

/-- `TypeInference._is_json_like`: brace/bracket-delimited and
`json.loads`-parsable. -/
def is_json_like (v : String) : Bool :=
  ((strStarts v "\x7b" || strStarts v "[") &&
   (strEnds v "\x7d" || strEnds v "]")) &&
  jsonParseOk v

/-! ## Decimal rendering (for `VARCHAR(n)` type strings) -/

/-- Digits of `n`, most significant first (fuelled). -/
def natDigits : Nat → Nat → List Char
  | 0, _ => []
  | fuel + 1, n =>
    if n < 10 then [Char.ofNat (48 + n)]
    else natDigits fuel (n / 10) ++ [Char.ofNat (48 + n % 10)]

/-- Decimal rendering of a natural number. -/
def natRepr (n : Nat) : String := ⟨natDigits (n + 1) n⟩

/-! ## `TypeInference.infer_from_name`

Source: `pgtools/utils/type_inference.py`, lines 36-91.  The pattern lists
and their precedence are transcribed verbatim. -/

/-- The rule chain of `infer_from_name`, on the already-lowered name. -/
def inferFromNameL (n : String) : String :=
  if n = "id" || n = "pk" || strEnds n "_id" then
    if n = "id" then "SERIAL PRIMARY KEY" else "INTEGER"
  else if ["created_at", "updated_at", "timestamp", "_at"].any (strContains n) then
    "TIMESTAMPTZ"
  else if ["date", "_date", "birthday", "anniversary"].any (strContains n) then
    "DATE"
  else if ["is_", "has_", "can_", "should_", "enabled", "active",
      "deleted"].any (strContains n) then
    "BOOLEAN"
  else if ["price", "cost", "amount", "total", "count", "num",
      "quantity"].any (strContains n) then
    if ["price", "cost", "amount", "total"].any (strContains n)
    then "NUMERIC(10,2)" else "INTEGER"
  else if ["email", "mail"].any (strContains n) then "TEXT"
  else if ["url", "link", "website"].any (strContains n) then "TEXT"
  else if ["phone", "mobile", "tel"].any (strContains n) then "VARCHAR(20)"
  else if strEnds n "s" && !(strEnds n "ss") &&
      ["tag", "category", "author", "keyword",
        "skill"].any (fun x => x = (⟨n.data.dropLast⟩ : String)) then
    "TEXT[]"
  else if ["metadata", "config", "settings", "options", "data",
      "json"].any (strContains n) then
    "JSONB"
  else if ["name", "title", "description", "comment", "note", "text",
      "content"].any (strContains n) then
    "TEXT"
  else "TEXT"

def infer_from_name (column_name : String) : String :=
  inferFromNameL (pyLower column_name)

/-! ## `TypeInference.infer_from_values`

Source: `pgtools/utils/type_inference.py`, lines 93-182.  Each sample is
classified into exactly one bucket, following the `continue`-driven control
flow of the loop; `count > total * 0.7` on Python floats agrees with
`10 * count > 7 * total` for every count and total at most the 20-sample
cap, so the thresholds are modelled exactly by those Nat comparisons. -/

inductive SampleKind | boolK | intK | floatK | dateK | jsonK | otherK
  deriving DecidableEq, Repr

/-- The bucket one trimmed sample lands in inside the counting loop. -/
def classifySample (val : String) : SampleKind :=
  let valLower := pyLower val
  if ["true", "false", "t", "f", "yes", "no", "y", "n", "1",
      "0"].any (fun x => x = valLower) then .boolK
  else if strContains val "." || strContains valLower "e" then
    if (pyFloatParse val.data).isSome then .floatK
    else if is_date_like val then .dateK
    else if is_json_like val then .jsonK
    else .otherK
  else if (pyIntParse val.data).isSome then .intK
  else if is_date_like val then .dateK
  else if is_json_like val then .jsonK
  else .otherK

/-- `[v.strip() for v in sample_values if v and v.strip()]`. -/
def nonEmptyValues (sample_values : List String) : List String :=
  sample_values.filterMap (fun v =>
    if v = "" then none
    else if pyStrip v = "" then none
    else some (pyStrip v))

def countKind (k : SampleKind) (vals : List String) : Nat :=
  (vals.filter (fun v => classifySample v = k)).length

def infer_from_values (column_name : String) (sample_values : List String)
    (max_samples : Nat := 20) : String :=
  let name_type := infer_from_name column_name
  let non_empty_values := nonEmptyValues sample_values
  if non_empty_values = [] then name_type
  else
    let values_to_check := non_empty_values.take max_samples
    let boolean_count := countKind .boolK values_to_check
    let integer_count := countKind .intK values_to_check
    let float_count := countKind .floatK values_to_check
    let numeric_count := integer_count + float_count
    let date_count := countKind .dateK values_to_check
    let json_count := countKind .jsonK values_to_check
    let total_samples := values_to_check.length
    if 10 * boolean_count > 7 * total_samples then "BOOLEAN"
    else if 10 * integer_count > 8 * total_samples then "INTEGER"
    else if 10 * numeric_count > 8 * total_samples then "NUMERIC"
    else if 10 * date_count > 7 * total_samples then "DATE"
    else if 10 * json_count > 7 * total_samples then "JSONB"
    else
      let nameLower := pyLower column_name
      let firstTen := values_to_check.take 10
      let array_like :=
        (firstTen.filter (fun v => strContains v ";" || strContains v ",")).length
      if strEnds nameLower "s" && !(strEnds nameLower "ss") &&
          10 * array_like > 5 * firstTen.length then "TEXT[]"
      else
        let max_length :=
          (non_empty_values.map (fun v => v.data.length)).foldl max 0
        if max_length ≤ 255
        then "VARCHAR(" ++ natRepr (min (max_length * 2) 255) ++ ")"
        else "TEXT"

/-! ## `TypeInference.infer_type`

Source: `pgtools/utils/type_inference.py`, lines 207-223.  Python's
`if sample_values:` treats `None` and the empty list alike, so the model
takes the samples as a plain list. -/

def infer_type (column_name : String) (sample_values : List String := []) : String :=
  let normalized_name := normalize_column_name column_name
  if sample_values ≠ []
  then infer_from_values normalized_name sample_values
  else infer_from_name normalized_name

/-! ### Claim C1 -/

/-- Normalized names are fixed by `pyLower`. -/
theorem pyLower_normalize (s : String) :
    pyLower (normalize_column_name s) = normalize_column_name s := by
  have h := normalize_identOk s
  unfold identOkB at h
  unfold pyLower
  rcases hl : (normalize_column_name s).data with _ | ⟨c, t⟩
  · rw [hl] at h; simp at h
  · rw [hl] at h
    rcases Bool.and_eq_true_iff.mp h with ⟨h12, _⟩
    rcases Bool.and_eq_true_iff.mp h12 with ⟨_, h2⟩
    have h2' := List.all_eq_true.mp h2
    have : (c :: t).map lowerA = c :: t :=
      map_eq_self_of_eq (fun x hx => lowerA_eq_self (goodChar_not_upper (h2' x hx)))
    rw [this, ← hl]

/-- On an id-family name, the first rule of `infer_from_name` fires. -/
theorem infer_from_name_idFam {n : String} (hlow : pyLower n = n)
    (h : n = "id" ∨ n = "pk" ∨ strEnds n "_id" = true) :
    infer_from_name n = (if n = "id" then "SERIAL PRIMARY KEY" else "INTEGER") := by
  unfold infer_from_name
  rw [hlow]
  unfold inferFromNameL
  have hcond : (n = "id" || n = "pk" || strEnds n "_id") = true := by
    rcases h with h | h | h
    · simp [h]
    · simp [h]
    · simp [h]
  rw [if_pos hcond]

/-- All-blank sample lists produce no analyzable values. -/
theorem nonEmptyValues_nil {samples : List String}
    (h : ∀ v ∈ samples, pyStrip v = "") : nonEmptyValues samples = [] := by
  unfold nonEmptyValues
  rw [List.filterMap_eq_nil_iff]
  intro v hv
  by_cases he : v = ""
  · simp [he]
  · simp [he, h v hv]

/-- C1 (amended): a column name normalizing to `id`, `pk`, or `*_id` is
given the integer-family tag (`SERIAL PRIMARY KEY` for `id`, `INTEGER`
otherwise) whenever the sample list is empty or every sample is blank.
(With at least one non-blank sample the name rule is ignored and the
sample statistics decide — see `C1_counterexample`.) -/
theorem C1_id_name_rule (name : String) (samples : List String)
    (hid : normalize_column_name name = "id" ∨ normalize_column_name name = "pk" ∨
      strEnds (normalize_column_name name) "_id" = true)
    (hblank : ∀ v ∈ samples, pyStrip v = "") :
    infer_type name samples =
      (if normalize_column_name name = "id" then "SERIAL PRIMARY KEY" else "INTEGER") := by
  unfold infer_type
  have hname := infer_from_name_idFam (pyLower_normalize name) hid
  by_cases hs : samples = []
  · rw [if_neg (by simp [hs])]
    exact hname
  · rw [if_pos (by simpa using hs)]
    unfold infer_from_values
    rw [if_pos (nonEmptyValues_nil hblank)]
    exact hname

/-- C1 witness: `infer_type "id" [""]` hits the name rule. -/
theorem C1_id_name_rule_witness :
    infer_type "id" [""] =
      (if normalize_column_name "id" = "id" then "SERIAL PRIMARY KEY" else "INTEGER") :=
  C1_id_name_rule "id" [""] (Or.inl (by decide)) (by decide)

/-- C1 counterexample: the claim asserts the name rules win for *every*
sample list, but `infer_from_values` only returns the name-based type when
no non-blank sample exists; `infer_type "id" ["hello"]` is sized as a
varchar from the sample, not as an integer key. -/
theorem C1_counterexample :
    infer_type "id" ["hello"] = "VARCHAR(10)" ∧
      infer_type "id" ["hello"] ≠ "SERIAL PRIMARY KEY" ∧
      infer_type "id" ["hello"] ≠ "INTEGER" := by
  refine ⟨by decide, by decide, by decide⟩

/-! ## `DataConverter` (source: `pgtools/utils/data_converter.py`)

Converted cell values.  Python returns heterogeneous objects
(`int`, `float`, `bool`, `date`, `datetime`, `list`, `str`, `None`); the
model wraps them in one inductive. -/

inductive Val where
  | none
  | int (n : Int)
  | real (x : PyFloat)
  | bool (b : Bool)
  | date (y m d : Nat)
  | timestamp (dt : DateTime6)
  | arr (xs : List String)
  | str (s : String)
  deriving DecidableEq, Repr

/-- `DataConverter._convert_boolean`. -/
def convert_boolean (value : String) : Bool :=
  ["true", "t", "yes", "y", "1"].any (fun x => x = pyLower value)

/-- `DataConverter._convert_date`: the six-format cascade, first success
wins. -/
def convert_date (value : String) : Option (Nat × Nat × Nat) :=
  (parseYMDFull '-' value.data) <|> (parseYMDFull '/' value.data) <|>
  parseMDYFull value.data <|> parseDMYFull value.data <|>
  parseYMFull value.data <|> parseYFull value.data

/-- `DataConverter._convert_timestamp`: the six-format cascade, first
success wins. -/
def convert_timestamp (value : String) : Option DateTime6 :=
  parseDTFull '-' (some true) value.data <|>
  parseDTFull '-' (some false) value.data <|>
  parseDTFull '-' Option.none value.data <|>
  parseDTFull '/' (some true) value.data <|>
  parseDTFull '/' (some false) value.data <|>
  parseDTFull '/' Option.none value.data

/-- `DataConverter._convert_array`: split on `;` if present, else on `,`
if present, else a single-element list; elements trimmed, empties
dropped. -/
def convert_array (value : String) : List String :=
  if strContains value ";" then
    (strSplit value ';').filterMap (fun item =>
      if pyStrip item = "" then Option.none else some (pyStrip item))
  else if strContains value "," then
    (strSplit value ',').filterMap (fun item =>
      if pyStrip item = "" then Option.none else some (pyStrip item))
  else [value]

/-- One character of Python `json.dumps` string escaping (the control
characters that do not occur in this code base's data keep themselves). -/
def escJsonChar (c : Char) : List Char :=
  if c = '"' then ['\\', '"']
  else if c = '\\' then ['\\', '\\']
  else if c = '\n' then ['\\', 'n']
  else if c = '\r' then ['\\', 'r']
  else if c = '\t' then ['\\', 't']
  else if c = '\x08' then ['\\', 'b']
  else if c = '\x0c' then ['\\', 'f']
  else [c]

def escJson (s : String) : String :=
  ⟨s.data.foldr (fun c acc => escJsonChar c ++ acc) []⟩

def joinSep (sep : String) : List String → String
  | [] => ""
  | [x] => x
  | x :: y :: xs => x ++ sep ++ joinSep sep (y :: xs)

/-- Python `json.dumps` of a string-to-string dict (default separators:
`", "` and `": "`). -/
def jsonDumpsObj (pairs : List (String × String)) : String :=
  "\x7b" ++
    joinSep ", " (pairs.map (fun kv =>
      "\"" ++ escJson kv.1 ++ "\": \"" ++ escJson kv.2 ++ "\"")) ++
  "\x7d"

/-- `DataConverter._convert_json`: validate, re-serialize on success
(abstracted as the identity on the valid text, see the header), else wrap
as `{"raw_value": value}`. -/
def convert_json (value : String) : String :=
  if jsonParseOk value then value
  else jsonDumpsObj [("raw_value", value)]

/-- The `except (ValueError, TypeError)` handler of `convert_value`:
`None` for the numeric type names, the (stripped) value itself
otherwise. -/
def convertErrFallback (type_upper value : String) : Val :=
  if ["INTEGER", "NUMERIC", "DECIMAL", "REAL",
      "DOUBLE"].any (strContains type_upper)
  then .none else .str value

/-- The type dispatch of `convert_value`, after the blank check, on the
stripped value and upper-cased type name. -/
def convertBody (value type_upper : String) : Val :=
  if ["INTEGER", "SERIAL", "BIGINT", "SMALLINT"].any (strContains type_upper) then
    match pyIntParse value.data with
    | some n => .int n
    | Option.none => convertErrFallback type_upper value
  else if ["NUMERIC", "DECIMAL", "REAL", "DOUBLE"].any (strContains type_upper) then
    match pyFloatParse value.data with
    | some x => .real x
    | Option.none => convertErrFallback type_upper value
  else if strContains type_upper "BOOLEAN" then .bool (convert_boolean value)
  else if strContains type_upper "DATE" && !(strContains type_upper "TIMESTAMP") then
    match convert_date value with
    | some (y, m, d) => .date y m d
    | Option.none => .none
  else if strContains type_upper "TIMESTAMP" then
    match convert_timestamp value with
    | some dt => .timestamp dt
    | Option.none => .none
  else if strContains type_upper "[]" then .arr (convert_array value)
  else if ["JSON", "JSONB"].any (strContains type_upper) then .str (convert_json value)
  else .str value

/-- `DataConverter.convert_value` (lines 16-70).  The only operations in
its `try` block that can raise are `int(value)` and `float(value)`; all
other helpers are total, so the handler is reachable exactly from the two
numeric parses.  A `None` cell (a short `DictReader` row) takes the
`if not value` early return. -/
def convert_value (value : Option String) (postgres_type : String) : Val :=
  match value with
  | Option.none => .none
  | some v0 =>
    if pyStrip v0 = "" then .none
    else convertBody (pyStrip v0) (pyUpper postgres_type)


/-! ### Claim C2 -/

theorem containsSub_mem {l pat : List Char} (h : containsSub l pat = true) :
    ∀ c ∈ pat, c ∈ l := by
  induction l with
  | nil =>
    intro c hc
    unfold containsSub at h
    rw [List.isEmpty_iff] at h
    subst h
    cases hc
  | cons a tl ih =>
    intro c hc
    unfold containsSub at h
    rcases Bool.or_eq_true_iff.mp h with h1 | h1
    · exact (List.isPrefixOf_iff_prefix.mp h1).subset hc
    · exact List.mem_cons_of_mem _ (ih h1 c hc)

theorem natDigits_all_digits :
    ∀ fuel n, ∀ c ∈ natDigits fuel n, isDigitA c = true := by
  intro fuel
  induction fuel with
  | zero => intro n c hc; cases hc
  | succ f ih =>
    intro n c hc
    unfold natDigits at hc
    by_cases hn : n < 10
    · rw [if_pos hn] at hc
      rcases List.mem_singleton.mp hc with rfl
      unfold isDigitA
      have hv : (Char.ofNat (48 + n)).toNat = 48 + n :=
        toNat_ofNat_of_lt (by omega)
      rw [hv]
      simp only [Bool.and_eq_true, decide_eq_true_eq]
      omega
    · rw [if_neg hn] at hc
      rcases List.mem_append.mp hc with h1 | h1
      · exact ih _ c h1
      · rcases List.mem_singleton.mp h1 with rfl
        unfold isDigitA
        have hlt : n % 10 < 10 := Nat.mod_lt _ (by omega)
        have hv : (Char.ofNat (48 + n % 10)).toNat = 48 + n % 10 :=
          toNat_ofNat_of_lt (by omega)
        rw [hv]
        simp only [Bool.and_eq_true, decide_eq_true_eq]
        omega

/-- The rendered `VARCHAR(n)` type string. -/
def varcharTag (n : Nat) : String := "VARCHAR(" ++ natRepr n ++ ")"

theorem mem_varcharTag {n : Nat} {c : Char} (h : c ∈ (varcharTag n).data) :
    c ∈ "VARCHAR()".data ∨ isDigitA c = true := by
  unfold varcharTag at h
  have hd : ("VARCHAR(" ++ natRepr n ++ ")").data
      = "VARCHAR(".data ++ (natRepr n).data ++ ")".data := by
    simp [String.data_append]
  rw [hd] at h
  have hsub : ∀ x ∈ "VARCHAR(".data, x ∈ "VARCHAR()".data := by decide
  rcases List.mem_append.mp h with h1 | h1
  · rcases List.mem_append.mp h1 with h2 | h2
    · exact Or.inl (hsub c h2)
    · exact Or.inr (natDigits_all_digits _ _ c h2)
  · rcases List.mem_singleton.mp h1 with rfl
    exact Or.inl (by decide)

theorem upperA_eq_self {c : Char} (h : isLowerA c = false) : upperA c = c := by
  unfold upperA; rw [h]; rfl

theorem pyUpper_varcharTag (n : Nat) : pyUpper (varcharTag n) = varcharTag n := by
  unfold pyUpper
  have hmap : (varcharTag n).data.map upperA = (varcharTag n).data := by
    refine map_eq_self_of_eq ?_
    intro c hc
    refine upperA_eq_self ?_
    rcases mem_varcharTag hc with h1 | h1
    · have hall : ∀ x ∈ "VARCHAR()".data, isLowerA x = false := by decide
      exact hall c h1
    · unfold isDigitA at h1
      unfold isLowerA
      simp only [Bool.and_eq_true, decide_eq_true_eq] at h1
      simp only [Bool.and_eq_false_iff, decide_eq_false_iff_not, Nat.not_le]
      omega
  rw [hmap]

/-- No type-dispatch pattern of `convert_value` occurs in a `VARCHAR(n)`
type string: each pattern contains a letter outside `VARCHAR()` and the
digits. -/
theorem varcharTag_no_pattern (n : Nat) (pat : String) (c : Char)
    (hc : c ∈ pat.data) (h1 : c ∈ "VARCHAR()".data → False)
    (h2 : isDigitA c = false) :
    strContains (varcharTag n) pat = false := by
  by_contra h
  rw [Bool.not_eq_false] at h
  have hmem := containsSub_mem h c hc
  rcases mem_varcharTag hmem with h3 | h3
  · exact h1 h3
  · rw [h3] at h2; cases h2

/-- Case analysis on `convert_value`: missing/blank inputs give null,
otherwise the dispatch body runs on the stripped value. -/
theorem convert_value_elim (P : Val → Prop) (t : String) (v : Option String)
    (hnone : P Val.none)
    (hbody : ∀ s : String, pyStrip s ≠ "" → P (convertBody (pyStrip s) (pyUpper t))) :
    P (convert_value v t) := by
  rcases v with _ | s
  · exact hnone
  · show P (if pyStrip s = "" then Val.none else convertBody (pyStrip s) (pyUpper t))
    by_cases hs : pyStrip s = ""
    · rw [if_pos hs]; exact hnone
    · rw [if_neg hs]; exact hbody s hs

/-- C2 (amended): `convert_value` is total (it is a Lean function), blank
or missing input yields null, and over the closed type-tag vocabulary the
result is null or a value of the tag's category — with one exception the
claim missed: for `SERIAL PRIMARY KEY` a non-empty string that does not
parse as an integer is returned as the stripped raw string, because the
exception handler nulls only type names containing
`INTEGER/NUMERIC/DECIMAL/REAL/DOUBLE`, and `SERIAL PRIMARY KEY` contains
none of them.  For the plain `INTEGER` tag the claim's null-on-failure
behaviour does hold. -/
theorem C2_convert_value_amended :
    (∀ t, convert_value Option.none t = Val.none) ∧
    (∀ t s, pyStrip s = "" → convert_value (some s) t = Val.none) ∧
    (∀ s, pyStrip s ≠ "" → pyIntParse (pyStrip s).data = Option.none →
      convert_value (some s) "INTEGER" = Val.none ∧
      convert_value (some s) "SERIAL PRIMARY KEY" = Val.str (pyStrip s)) ∧
    (∀ v, convert_value v "INTEGER" = Val.none ∨
      ∃ k, convert_value v "INTEGER" = Val.int k) ∧
    (∀ v, convert_value v "SERIAL PRIMARY KEY" = Val.none ∨
      (∃ k, convert_value v "SERIAL PRIMARY KEY" = Val.int k) ∨
      (∃ w, convert_value v "SERIAL PRIMARY KEY" = Val.str w)) ∧
    (∀ v, convert_value v "NUMERIC(10,2)" = Val.none ∨
      ∃ x, convert_value v "NUMERIC(10,2)" = Val.real x) ∧
    (∀ v, convert_value v "BOOLEAN" = Val.none ∨
      ∃ b, convert_value v "BOOLEAN" = Val.bool b) ∧
    (∀ v, convert_value v "DATE" = Val.none ∨
      ∃ y m d, convert_value v "DATE" = Val.date y m d) ∧
    (∀ v, convert_value v "TIMESTAMPTZ" = Val.none ∨
      ∃ dt, convert_value v "TIMESTAMPTZ" = Val.timestamp dt) ∧
    (∀ v, convert_value v "TEXT[]" = Val.none ∨
      ∃ xs, convert_value v "TEXT[]" = Val.arr xs) ∧
    (∀ v, convert_value v "JSONB" = Val.none ∨
      ∃ w, convert_value v "JSONB" = Val.str w) ∧
    (∀ v, convert_value v "TEXT" = Val.none ∨
      ∃ w, convert_value v "TEXT" = Val.str w) ∧
    (∀ k v, convert_value v (varcharTag k) = Val.none ∨
      ∃ w, convert_value v (varcharTag k) = Val.str w) := by
  have hblank : ∀ t s, pyStrip s = "" → convert_value (some s) t = Val.none := by
    intro t s hs
    show (if pyStrip s = "" then Val.none else convertBody (pyStrip s) (pyUpper t))
      = Val.none
    rw [if_pos hs]
  have hbody : ∀ s t, pyStrip s ≠ "" →
      convert_value (some s) t = convertBody (pyStrip s) (pyUpper t) := by
    intro s t hs
    show (if pyStrip s = "" then Val.none else convertBody (pyStrip s) (pyUpper t)) = _
    rw [if_neg hs]
  refine ⟨fun _ => rfl, hblank, ?_, ?_, ?_, ?_, ?_, ?_, ?_, ?_, ?_, ?_, ?_⟩
  · intro s hs hint
    constructor
    · rw [hbody s "INTEGER" hs]
      rw [show pyUpper "INTEGER" = "INTEGER" from by decide]
      unfold convertBody
      rw [if_pos (by decide), hint]
      unfold convertErrFallback
      rw [if_pos (by decide)]
    · rw [hbody s "SERIAL PRIMARY KEY" hs]
      rw [show pyUpper "SERIAL PRIMARY KEY" = "SERIAL PRIMARY KEY" from by decide]
      unfold convertBody
      rw [if_pos (by decide), hint]
      unfold convertErrFallback
      rw [if_neg (by decide)]
  · intro v
    refine convert_value_elim (fun x => x = Val.none ∨ ∃ k, x = Val.int k)
      "INTEGER" v (Or.inl rfl) ?_
    intro s _
    rw [show pyUpper "INTEGER" = "INTEGER" from by decide]
    unfold convertBody
    rw [if_pos (by decide)]
    rcases hint : pyIntParse (pyStrip s).data with _ | k
    · left
      unfold convertErrFallback
      rw [if_pos (by decide)]
    · right; exact ⟨k, rfl⟩
  · intro v
    refine convert_value_elim
      (fun x => x = Val.none ∨ (∃ k, x = Val.int k) ∨ (∃ w, x = Val.str w))
      "SERIAL PRIMARY KEY" v (Or.inl rfl) ?_
    intro s _
    rw [show pyUpper "SERIAL PRIMARY KEY" = "SERIAL PRIMARY KEY" from by decide]
    unfold convertBody
    rw [if_pos (by decide)]
    rcases hint : pyIntParse (pyStrip s).data with _ | k
    · right; right
      refine ⟨pyStrip s, ?_⟩
      unfold convertErrFallback
      rw [if_neg (by decide)]
    · right; left; exact ⟨k, rfl⟩
  · intro v
    refine convert_value_elim (fun x => x = Val.none ∨ ∃ y, x = Val.real y)
      "NUMERIC(10,2)" v (Or.inl rfl) ?_
    intro s _
    rw [show pyUpper "NUMERIC(10,2)" = "NUMERIC(10,2)" from by decide]
    unfold convertBody
    rw [if_neg (by decide), if_pos (by decide)]
    rcases hf : pyFloatParse (pyStrip s).data with _ | x
    · left
      unfold convertErrFallback
      rw [if_pos (by decide)]
    · right; exact ⟨x, rfl⟩
  · intro v
    refine convert_value_elim (fun x => x = Val.none ∨ ∃ b, x = Val.bool b)
      "BOOLEAN" v (Or.inl rfl) ?_
    intro s _
    rw [show pyUpper "BOOLEAN" = "BOOLEAN" from by decide]
    unfold convertBody
    rw [if_neg (by decide), if_neg (by decide), if_pos (by decide)]
    right; exact ⟨_, rfl⟩
  · intro v
    refine convert_value_elim (fun x => x = Val.none ∨ ∃ y m d, x = Val.date y m d)
      "DATE" v (Or.inl rfl) ?_
    intro s _
    rw [show pyUpper "DATE" = "DATE" from by decide]
    unfold convertBody
    rw [if_neg (by decide), if_neg (by decide), if_neg (by decide),
      if_pos (by decide)]
    rcases hd : convert_date (pyStrip s) with _ | ymd
    · left; rfl
    · right; exact ⟨ymd.1, ymd.2.1, ymd.2.2, rfl⟩
  · intro v
    refine convert_value_elim (fun x => x = Val.none ∨ ∃ dt, x = Val.timestamp dt)
      "TIMESTAMPTZ" v (Or.inl rfl) ?_
    intro s _
    rw [show pyUpper "TIMESTAMPTZ" = "TIMESTAMPTZ" from by decide]
    unfold convertBody
    rw [if_neg (by decide), if_neg (by decide), if_neg (by decide),
      if_neg (by decide), if_pos (by decide)]
    rcases ht : convert_timestamp (pyStrip s) with _ | dt
    · left; rfl
    · right; exact ⟨dt, rfl⟩
  · intro v
    refine convert_value_elim (fun x => x = Val.none ∨ ∃ xs, x = Val.arr xs)
      "TEXT[]" v (Or.inl rfl) ?_
    intro s _
    rw [show pyUpper "TEXT[]" = "TEXT[]" from by decide]
    unfold convertBody
    rw [if_neg (by decide), if_neg (by decide), if_neg (by decide),
      if_neg (by decide), if_neg (by decide), if_pos (by decide)]
    right; exact ⟨_, rfl⟩
  · intro v
    refine convert_value_elim (fun x => x = Val.none ∨ ∃ w, x = Val.str w)
      "JSONB" v (Or.inl rfl) ?_
    intro s _
    rw [show pyUpper "JSONB" = "JSONB" from by decide]
    unfold convertBody
    rw [if_neg (by decide), if_neg (by decide), if_neg (by decide),
      if_neg (by decide), if_neg (by decide), if_neg (by decide),
      if_pos (by decide)]
    right; exact ⟨_, rfl⟩
  · intro v
    refine convert_value_elim (fun x => x = Val.none ∨ ∃ w, x = Val.str w)
      "TEXT" v (Or.inl rfl) ?_
    intro s _
    rw [show pyUpper "TEXT" = "TEXT" from by decide]
    unfold convertBody
    rw [if_neg (by decide), if_neg (by decide), if_neg (by decide),
      if_neg (by decide), if_neg (by decide), if_neg (by decide),
      if_neg (by decide)]
    right; exact ⟨_, rfl⟩
  · intro k v
    refine convert_value_elim (fun x => x = Val.none ∨ ∃ w, x = Val.str w)
      (varcharTag k) v (Or.inl rfl) ?_
    intro s _
    rw [pyUpper_varcharTag k]
    unfold convertBody
    have g1 : strContains (varcharTag k) "INTEGER" = false :=
      varcharTag_no_pattern k _ 'I' (by decide) (by decide) (by decide)
    have g2 : strContains (varcharTag k) "SERIAL" = false :=
      varcharTag_no_pattern k _ 'S' (by decide) (by decide) (by decide)
    have g3 : strContains (varcharTag k) "BIGINT" = false :=
      varcharTag_no_pattern k _ 'B' (by decide) (by decide) (by decide)
    have g4 : strContains (varcharTag k) "SMALLINT" = false :=
      varcharTag_no_pattern k _ 'S' (by decide) (by decide) (by decide)
    have g5 : strContains (varcharTag k) "NUMERIC" = false :=
      varcharTag_no_pattern k _ 'N' (by decide) (by decide) (by decide)
    have g6 : strContains (varcharTag k) "DECIMAL" = false :=
      varcharTag_no_pattern k _ 'D' (by decide) (by decide) (by decide)
    have g7 : strContains (varcharTag k) "REAL" = false :=
      varcharTag_no_pattern k _ 'E' (by decide) (by decide) (by decide)
    have g8 : strContains (varcharTag k) "DOUBLE" = false :=
      varcharTag_no_pattern k _ 'D' (by decide) (by decide) (by decide)
    have g9 : strContains (varcharTag k) "BOOLEAN" = false :=
      varcharTag_no_pattern k _ 'B' (by decide) (by decide) (by decide)
    have g10 : strContains (varcharTag k) "DATE" = false :=
      varcharTag_no_pattern k _ 'D' (by decide) (by decide) (by decide)
    have g11 : strContains (varcharTag k) "TIMESTAMP" = false :=
      varcharTag_no_pattern k _ 'T' (by decide) (by decide) (by decide)
    have g12 : strContains (varcharTag k) "[]" = false :=
      varcharTag_no_pattern k _ '[' (by decide) (by decide) (by decide)
    have g13 : strContains (varcharTag k) "JSON" = false :=
      varcharTag_no_pattern k _ 'J' (by decide) (by decide) (by decide)
    have g14 : strContains (varcharTag k) "JSONB" = false :=
      varcharTag_no_pattern k _ 'J' (by decide) (by decide) (by decide)
    rw [if_neg (by simp [g1, g2, g3, g4]), if_neg (by simp [g5, g6, g7, g8]),
      if_neg (by simp [g9]), if_neg (by simp [g10]), if_neg (by simp [g11]),
      if_neg (by simp [g12]), if_neg (by simp [g13, g14])]
    right; exact ⟨_, rfl⟩

/-- C2 witness: the amended theorem applied at `" abc "`, discharging the
non-blank and non-integer hypotheses. -/
theorem C2_convert_value_amended_witness :
    convert_value (some " abc ") "INTEGER" = Val.none ∧
      convert_value (some " abc ") "SERIAL PRIMARY KEY" = Val.str "abc" :=
  C2_convert_value_amended.2.2.1 " abc " (by decide) (by decide)

/-- C2 counterexample: for the integer-family tag `SERIAL PRIMARY KEY`, a
non-empty string that does not parse as a base-10 integer is returned
verbatim instead of yielding null. -/
theorem C2_counterexample :
    convert_value (some "abc") "SERIAL PRIMARY KEY" = Val.str "abc" ∧
      convert_value (some "abc") "SERIAL PRIMARY KEY" ≠ Val.none := by
  refine ⟨by decide, by decide⟩


/-! ## `Schema` and the schema construction paths

Source: `pgtools/core/schema_generator.py` (class `Schema`,
`SchemaGenerator.from_labels`) and `pgtools/core/csv_importer.py`
(`_auto_detect_schema`, `_load_schema_from_file`,
`_add_standard_columns`).  A column dict `{"name", "type", "constraints",
"original_name"}` becomes a structure (`from_labels`'s unused
`original_label` extra key is not modelled); `source_info` is
presentation-only metadata and is not modelled.  The CSV sampling loop
(`_auto_detect_schema` lines 133-147) is external file I/O and enters the
model as the `sampleData` association list of per-header sample values;
`sample_data.get(field, [])` becomes `(sampleData.lookup field).getD []`. -/

structure Column where
  name : String
  type : String
  constraints : List String
  originalName : Option String
  deriving DecidableEq, Repr

structure Schema where
  tableName : String
  schemaName : String
  columns : List Column
  deriving DecidableEq, Repr

/-- `Schema.add_column` (append). -/
def addColumn (s : Schema) (name dtype : String) (constraints : List String)
    (orig : Option String) : Schema :=
  { s with columns := s.columns ++ [⟨name, dtype, constraints, orig⟩] }

/-- A column carries a primary-key tag: either as the terminal words of its
type or as a `PRIMARY KEY` constraint. -/
def pkTagged (c : Column) : Bool :=
  strEnds c.type "PRIMARY KEY" || c.constraints.any (fun x => x = "PRIMARY KEY")

/-- The primary-key override of `SchemaGenerator.from_labels`
(lines 131-137) applied to one column's name-inferred type.  A present
`primaryKey` models a non-empty `primary_key` argument (Python's
truthiness test). -/
def fromLabelsType (primaryKey : Option String) (colName colType0 : String) : String :=
  match primaryKey with
  | some pk =>
    if colName = pk then
      (if strEnds colType0 "PRIMARY KEY" then colType0 else "SERIAL PRIMARY KEY")
    else if strEnds colType0 "PRIMARY KEY" then
      pyStrip (strReplace colType0 " PRIMARY KEY" "")
    else colType0
  | Option.none => colType0

def fromLabelsCol (primaryKey : Option String) (notNull : List String)
    (label : String) : Column :=
  { name := normalize_column_name label
    type := fromLabelsType primaryKey (normalize_column_name label)
      (infer_from_name (normalize_column_name label))
    constraints :=
      if normalize_column_name label ∈ notNull ∨
          strEnds (fromLabelsType primaryKey (normalize_column_name label)
            (infer_from_name (normalize_column_name label))) "PRIMARY KEY" = true
      then ["NOT NULL"] else []
    originalName := Option.none }

/-- `SchemaGenerator.from_labels` (lines 108-156). -/
def from_labels (labels : List String) (table_name schema_name : String)
    (primary_key : Option String) (not_null : List String) : Schema :=
  { tableName := table_name
    schemaName := schema_name
    columns := labels.map (fromLabelsCol primary_key not_null) }

/-- `CSVImporter._add_standard_columns` (lines 266-277): the membership
checks all use the column-name set taken before any append. -/
def add_standard_columns (s : Schema) : Schema :=
  { s with columns := s.columns
      ++ (if "metadata" ∈ s.columns.map (fun c => c.name) then []
          else [⟨"metadata", "JSONB", [], Option.none⟩])
      ++ (if "created_at" ∈ s.columns.map (fun c => c.name) then []
          else [⟨"created_at", "TIMESTAMPTZ", ["DEFAULT NOW()"], Option.none⟩])
      ++ (if "updated_at" ∈ s.columns.map (fun c => c.name) then []
          else [⟨"updated_at", "TIMESTAMPTZ", ["DEFAULT NOW()"], Option.none⟩]) }

/-- The primary-key handling of `_auto_detect_schema` (lines 156-164) on
one column: returns the (type, constraints) pair. -/
def autoDetectTypeCons (primaryKey : Option String)
    (normalizedName colType : String) : String × List String :=
  let pkHit : Bool := match primaryKey with
    | some pk => normalizedName = pk
    | Option.none => false
  if pkHit && !(strEnds colType "PRIMARY KEY") then
    if strStarts colType "SERIAL" then ("SERIAL PRIMARY KEY", [])
    else (colType, ["PRIMARY KEY"])
  else (colType, [])

def autoDetectCol (sampleData : List (String × List String))
    (primaryKey : Option String) (field : String) : Column :=
  { name := normalize_column_name field
    type := (autoDetectTypeCons primaryKey (normalize_column_name field)
      (infer_type (normalize_column_name field) ((sampleData.lookup field).getD []))).1
    constraints := (autoDetectTypeCons primaryKey (normalize_column_name field)
      (infer_type (normalize_column_name field) ((sampleData.lookup field).getD []))).2
    originalName := some field }

/-- `CSVImporter._auto_detect_schema` (lines 149-182). -/
def auto_detect_schema (table_name schema_name : String)
    (fieldnames : List String) (sampleData : List (String × List String))
    (primaryKey : Option String) : Schema :=
  add_standard_columns
    { tableName := table_name
      schemaName := schema_name
      columns := fieldnames.map (autoDetectCol sampleData primaryKey) }

/-- One column of `CSVImporter._load_schema_from_file` (lines 199-225).
A column definition is a name and an optional explicit type (`None` or an
empty type string are alike falsy in `if not col_type`). -/
def loadSchemaCol (table_name schema_name : String) (csvHeaders : List String)
    (sampleData : List (String × List String))
    (colDef : String × Option String) : Column :=
  let colName := colDef.1
  let originalName := csvHeaders.find? (fun h => normalize_column_name h = colName)
  let colType :=
    match colDef.2 with
    | some t => t
    | Option.none =>
      match originalName with
      | some _ =>
        let autoSchema := auto_detect_schema table_name schema_name csvHeaders
          sampleData Option.none
        match autoSchema.columns.find? (fun c => c.name = colName) with
        | some c => c.type
        | Option.none => "TEXT"
      | Option.none => "TEXT"
  ⟨colName, colType, [], originalName⟩

/-- `CSVImporter._load_schema_from_file` (lines 184-236). -/
def load_schema_from_file (table_name schema_name : String)
    (columnDefs : List (String × Option String)) (csvHeaders : List String)
    (sampleData : List (String × List String)) : Schema :=
  add_standard_columns
    { tableName := table_name
      schemaName := schema_name
      columns := columnDefs.map (loadSchemaCol table_name schema_name csvHeaders sampleData) }


/-! ### Claim C3 -/

/-- `infer_from_name` ranges over ten literal type strings. -/
theorem infer_from_name_mem (n : String) :
    infer_from_name n ∈ ["SERIAL PRIMARY KEY", "INTEGER", "TIMESTAMPTZ", "DATE",
      "BOOLEAN", "NUMERIC(10,2)", "TEXT", "VARCHAR(20)", "TEXT[]", "JSONB"] := by
  unfold infer_from_name inferFromNameL
  set m := pyLower n with hm
  by_cases h1 : (decide (m = "id") || decide (m = "pk") || strEnds m "_id") = true
  · rw [if_pos h1]
    by_cases h1b : m = "id"
    · rw [if_pos h1b]; decide
    · rw [if_neg h1b]; decide
  · rw [if_neg h1]
    by_cases h2 : (["created_at", "updated_at", "timestamp", "_at"].any (strContains m)) = true
    · rw [if_pos h2]; decide
    · rw [if_neg h2]
      by_cases h3 : (["date", "_date", "birthday", "anniversary"].any (strContains m)) = true
      · rw [if_pos h3]; decide
      · rw [if_neg h3]
        by_cases h4 : (["is_", "has_", "can_", "should_", "enabled", "active",
            "deleted"].any (strContains m)) = true
        · rw [if_pos h4]; decide
        · rw [if_neg h4]
          by_cases h5 : (["price", "cost", "amount", "total", "count", "num",
              "quantity"].any (strContains m)) = true
          · rw [if_pos h5]
            by_cases h5b : (["price", "cost", "amount", "total"].any (strContains m)) = true
            · rw [if_pos h5b]; decide
            · rw [if_neg h5b]; decide
          · rw [if_neg h5]
            by_cases h6 : (["email", "mail"].any (strContains m)) = true
            · rw [if_pos h6]; decide
            · rw [if_neg h6]
              by_cases h7 : (["url", "link", "website"].any (strContains m)) = true
              · rw [if_pos h7]; decide
              · rw [if_neg h7]
                by_cases h8 : (["phone", "mobile", "tel"].any (strContains m)) = true
                · rw [if_pos h8]; decide
                · rw [if_neg h8]
                  by_cases h9 : (strEnds m "s" && !(strEnds m "ss") &&
                      ["tag", "category", "author", "keyword",
                        "skill"].any (fun x => decide (x = (⟨m.data.dropLast⟩ : String)))) = true
                  · rw [if_pos h9]; decide
                  · rw [if_neg h9]
                    by_cases h10 : (["metadata", "config", "settings", "options", "data",
                        "json"].any (strContains m)) = true
                    · rw [if_pos h10]; decide
                    · rw [if_neg h10]
                      by_cases h11 : (["name", "title", "description", "comment", "note",
                          "text", "content"].any (strContains m)) = true
                      · rw [if_pos h11]; decide
                      · rw [if_neg h11]; decide

/-- Of those, only `SERIAL PRIMARY KEY` ends in `PRIMARY KEY`. -/
theorem infer_from_name_pk_iff (n : String) :
    strEnds (infer_from_name n) "PRIMARY KEY" = true ↔
      infer_from_name n = "SERIAL PRIMARY KEY" := by
  have h := infer_from_name_mem n
  simp only [List.mem_cons, List.not_mem_nil, or_false] at h
  rcases h with h | h | h | h | h | h | h | h | h | h <;> rw [h] <;> decide

/-- The stripped replacement applied to the one PK-ending type. -/
theorem strip_serial_pk :
    pyStrip (strReplace "SERIAL PRIMARY KEY" " PRIMARY KEY" "") = "SERIAL" := by
  decide

/-- In `from_labels` with a designated primary key, a produced column is
PK-tagged exactly when it bears the designated name. -/
theorem fromLabelsCol_pk (k : String) (nn : List String) (label : String) :
    pkTagged (fromLabelsCol (some k) nn label) = true ↔
      (fromLabelsCol (some k) nn label).name = k := by
  have hany : ((fromLabelsCol (some k) nn label).constraints.any
      (fun x => x = "PRIMARY KEY")) = false := by
    show ((if normalize_column_name label ∈ nn ∨
        strEnds (fromLabelsType (some k) (normalize_column_name label)
          (infer_from_name (normalize_column_name label))) "PRIMARY KEY" = true
        then ["NOT NULL"] else []).any (fun x => x = "PRIMARY KEY")) = false
    by_cases hc : normalize_column_name label ∈ nn ∨
        strEnds (fromLabelsType (some k) (normalize_column_name label)
          (infer_from_name (normalize_column_name label))) "PRIMARY KEY" = true
    · rw [if_pos hc]; decide
    · rw [if_neg hc]; decide
  unfold pkTagged
  rw [hany, Bool.or_false]
  show strEnds (fromLabelsType (some k) (normalize_column_name label)
      (infer_from_name (normalize_column_name label))) "PRIMARY KEY" = true ↔
    normalize_column_name label = k
  show strEnds (if normalize_column_name label = k then
      (if strEnds (infer_from_name (normalize_column_name label)) "PRIMARY KEY"
        then infer_from_name (normalize_column_name label) else "SERIAL PRIMARY KEY")
      else if strEnds (infer_from_name (normalize_column_name label)) "PRIMARY KEY" then
        pyStrip (strReplace (infer_from_name (normalize_column_name label)) " PRIMARY KEY" "")
      else infer_from_name (normalize_column_name label)) "PRIMARY KEY" = true ↔
    normalize_column_name label = k
  by_cases hnk : normalize_column_name label = k
  · rw [if_pos hnk]
    by_cases he : strEnds (infer_from_name (normalize_column_name label)) "PRIMARY KEY" = true
    · rw [if_pos he]; exact iff_of_true he hnk
    · rw [if_neg he]; exact iff_of_true (by decide) hnk
  · rw [if_neg hnk]
    by_cases he : strEnds (infer_from_name (normalize_column_name label)) "PRIMARY KEY" = true
    · rw [if_pos he, (infer_from_name_pk_iff _).mp he, strip_serial_pk]
      exact iff_of_false (by decide) hnk
    · rw [if_neg he]
      exact iff_of_false (by simp [he]) hnk

/-- C3 (amended): in the label-based builder `from_labels` with a
designated primary-key name, a column of the result carries a primary-key
tag (type suffix or constraint) exactly when it is named as designated —
any auto-detected `... PRIMARY KEY` type on a differently named column is
stripped, so with distinct column names at most one column is PK-tagged.
(The CSV auto-detect path does **not** strip: see `C3_counterexample`.) -/
theorem C3_from_labels_single_pk (labels : List String)
    (tbl sch k : String) (nn : List String) :
    ∀ col ∈ (from_labels labels tbl sch (some k) nn).columns,
      (pkTagged col = true ↔ col.name = k) := by
  intro col hcol
  unfold from_labels at hcol
  simp only [List.mem_map] at hcol
  rcases hcol with ⟨label, _, rfl⟩
  exact fromLabelsCol_pk k nn label

/-- C3 witness: the amended theorem applied to `["id", "isbn"]` with
designated key `isbn`, at the stripped `id` column. -/
theorem C3_from_labels_single_pk_witness :
    pkTagged ⟨"id", "SERIAL", [], Option.none⟩ = true ↔
      ("id" : String) = "isbn" :=
  C3_from_labels_single_pk ["id", "isbn"] "t" "public" "isbn" []
    ⟨"id", "SERIAL", [], Option.none⟩ (by decide)

/-- C3 counterexample: the CSV auto-detect path does not strip an
auto-detected primary-key tag from a differently named column: with headers
`id, isbn` (no sample rows) and designated key `isbn`, the result carries
two PK-tagged columns (`id : SERIAL PRIMARY KEY` by type and `isbn` by
constraint). -/
theorem C3_counterexample :
    ((auto_detect_schema "books" "public" ["id", "isbn"] []
        (some "isbn")).columns.filter pkTagged).map
      (fun c => (c.name, c.type, c.constraints)) =
      [("id", "SERIAL PRIMARY KEY", []), ("isbn", "TEXT", ["PRIMARY KEY"])] ∧
    ((auto_detect_schema "books" "public" ["id", "isbn"] []
        (some "isbn")).columns.filter pkTagged).length = 2 := by
  refine ⟨by decide, by decide⟩


/-! ### Claim C4 -/

/-- Each of the three bookkeeping names is present after
`_add_standard_columns`. -/
theorem add_std_mem (s : Schema) (nm : String)
    (hn : nm = "metadata" ∨ nm = "created_at" ∨ nm = "updated_at") :
    nm ∈ (add_standard_columns s).columns.map (fun c => c.name) := by
  unfold add_standard_columns
  simp only [List.map_append, List.mem_append]
  rcases hn with rfl | rfl | rfl
  · by_cases h : "metadata" ∈ s.columns.map (fun c => c.name)
    · exact Or.inl (Or.inl (Or.inl h))
    · refine Or.inl (Or.inl (Or.inr ?_))
      rw [if_neg h]
      decide
  · by_cases h : "created_at" ∈ s.columns.map (fun c => c.name)
    · exact Or.inl (Or.inl (Or.inl h))
    · refine Or.inl (Or.inr ?_)
      rw [if_neg h]
      decide
  · by_cases h : "updated_at" ∈ s.columns.map (fun c => c.name)
    · exact Or.inl (Or.inl (Or.inl h))
    · refine Or.inr ?_
      rw [if_neg h]
      decide

/-- When a bookkeeping name is absent from the data columns, the schema
ends with exactly one column of that name, carrying the standard type. -/
theorem add_std_filter (s : Schema) (nm ty : String)
    (hn : (nm = "metadata" ∧ ty = "JSONB") ∨ (nm = "created_at" ∧ ty = "TIMESTAMPTZ") ∨
      (nm = "updated_at" ∧ ty = "TIMESTAMPTZ"))
    (h : nm ∉ s.columns.map (fun c => c.name)) :
    ((add_standard_columns s).columns.filter (fun c => c.name = nm)).map
      (fun c => c.type) = [ty] := by
  unfold add_standard_columns
  simp only [List.filter_append, List.map_append]
  have hbase : s.columns.filter (fun c => c.name = nm) = [] := by
    rw [List.filter_eq_nil_iff]
    intro c hc
    simp only [decide_eq_true_eq]
    intro he
    exact h (List.mem_map.mpr ⟨c, hc, he⟩)
  rw [hbase]
  have hone : ∀ (other : Column), other.name ≠ nm →
      ∀ (cond : Prop) (inst : Decidable cond),
        (if cond then ([] : List Column) else [other]).filter
          (fun c => c.name = nm) = [] := by
    intro other hother cond inst
    by_cases hc : cond
    · rw [if_pos hc]; rfl
    · rw [if_neg hc]
      simp [List.filter_cons, hother]
  rcases hn with ⟨rfl, rfl⟩ | ⟨rfl, rfl⟩ | ⟨rfl, rfl⟩
  · rw [if_neg h]
    rw [hone ⟨"created_at", "TIMESTAMPTZ", ["DEFAULT NOW()"], Option.none⟩ (by decide) _ _,
      hone ⟨"updated_at", "TIMESTAMPTZ", ["DEFAULT NOW()"], Option.none⟩ (by decide) _ _]
    decide
  · rw [if_neg h]
    rw [hone ⟨"updated_at", "TIMESTAMPTZ", ["DEFAULT NOW()"], Option.none⟩ (by decide) _ _]
    have hmeta : (if "metadata" ∈ s.columns.map (fun c => c.name) then ([] : List Column)
        else [⟨"metadata", "JSONB", [], Option.none⟩]).filter
          (fun c => c.name = "created_at") = [] :=
      hone ⟨"metadata", "JSONB", [], Option.none⟩ (by decide) _ _
    rw [hmeta]
    decide
  · rw [if_neg h]
    have hmeta : (if "metadata" ∈ s.columns.map (fun c => c.name) then ([] : List Column)
        else [⟨"metadata", "JSONB", [], Option.none⟩]).filter
          (fun c => c.name = "updated_at") = [] :=
      hone ⟨"metadata", "JSONB", [], Option.none⟩ (by decide) _ _
    have hcre : (if "created_at" ∈ s.columns.map (fun c => c.name) then ([] : List Column)
        else [⟨"created_at", "TIMESTAMPTZ", ["DEFAULT NOW()"], Option.none⟩]).filter
          (fun c => c.name = "updated_at") = [] :=
      hone ⟨"created_at", "TIMESTAMPTZ", ["DEFAULT NOW()"], Option.none⟩ (by decide) _ _
    rw [hmeta, hcre]
    decide

/-- The pre-append column names of the two construction paths. -/
theorem auto_detect_names (sampleData : List (String × List String))
    (pk : Option String) (fieldnames : List String) :
    (fieldnames.map (autoDetectCol sampleData pk)).map (fun c => c.name)
      = fieldnames.map normalize_column_name := by
  rw [List.map_map]
  rfl

theorem load_schema_names (tbl sch : String) (csvHeaders : List String)
    (sampleData : List (String × List String))
    (columnDefs : List (String × Option String)) :
    (columnDefs.map (loadSchemaCol tbl sch csvHeaders sampleData)).map (fun c => c.name)
      = columnDefs.map Prod.fst := by
  rw [List.map_map]
  rfl

/-- C4 (amended): schemas from both importer construction paths contain,
by the time they are handed to table creation, columns named `metadata`,
`created_at` and `updated_at`; when such a name is not already among the
data columns, exactly one column of that name exists and it has the
standard type (`JSONB` resp. `TIMESTAMPTZ`).  A pre-existing data column
with one of these names suppresses the append and keeps its inferred or
declared type, which need not be the standard one — see
`C4_counterexample`. -/
theorem C4_standard_columns (tbl sch : String)
    (fieldnames : List String) (sampleData : List (String × List String))
    (pk : Option String)
    (columnDefs : List (String × Option String)) (csvHeaders : List String)
    (sampleData2 : List (String × List String)) :
    (∀ nm, (nm = "metadata" ∨ nm = "created_at" ∨ nm = "updated_at") →
      nm ∈ (auto_detect_schema tbl sch fieldnames sampleData pk).columns.map
        (fun c => c.name) ∧
      nm ∈ (load_schema_from_file tbl sch columnDefs csvHeaders
        sampleData2).columns.map (fun c => c.name)) ∧
    (∀ nm ty, ((nm = "metadata" ∧ ty = "JSONB") ∨
        (nm = "created_at" ∧ ty = "TIMESTAMPTZ") ∨
        (nm = "updated_at" ∧ ty = "TIMESTAMPTZ")) →
      (nm ∉ fieldnames.map normalize_column_name →
        ((auto_detect_schema tbl sch fieldnames sampleData pk).columns.filter
          (fun c => c.name = nm)).map (fun c => c.type) = [ty]) ∧
      (nm ∉ columnDefs.map Prod.fst →
        ((load_schema_from_file tbl sch columnDefs csvHeaders
            sampleData2).columns.filter
          (fun c => c.name = nm)).map (fun c => c.type) = [ty])) := by
  constructor
  · intro nm hn
    exact ⟨add_std_mem _ nm hn, add_std_mem _ nm hn⟩
  · intro nm ty hn
    constructor
    · intro h
      refine add_std_filter _ nm ty hn ?_
      show nm ∉ (fieldnames.map (autoDetectCol sampleData pk)).map (fun c => c.name)
      rw [auto_detect_names]
      exact h
    · intro h
      refine add_std_filter _ nm ty hn ?_
      show nm ∉ (columnDefs.map
        (loadSchemaCol tbl sch csvHeaders sampleData2)).map (fun c => c.name)
      rw [load_schema_names]
      exact h

/-- C4 witness: the theorem applied to the auto-detect path over headers
`["title"]`, whose normalized names avoid the bookkeeping names. -/
theorem C4_standard_columns_witness :
    ("metadata" : String) ∈ (auto_detect_schema "t" "public" ["title"] [] Option.none).columns.map
      (fun c => c.name) ∧
    ((auto_detect_schema "t" "public" ["title"] [] Option.none).columns.filter
      (fun c => c.name = "metadata")).map (fun c => c.type) = ["JSONB"] :=
  ⟨((C4_standard_columns "t" "public" ["title"] [] Option.none [] [] []).1 "metadata"
      (Or.inl rfl)).1,
   ((C4_standard_columns "t" "public" ["title"] [] Option.none [] [] []).2 "metadata"
      "JSONB" (Or.inl ⟨rfl, rfl⟩)).1 (by decide)⟩

/-- C4 counterexample: a CSV whose header row already contains `metadata`
with a non-JSON sample produces a `metadata` column whose type is the
sample-sized varchar, not JSONB — the bookkeeping append is skipped and the
claimed `metadata : JSONB` invariant fails. -/
theorem C4_counterexample :
    (auto_detect_schema "t" "public" ["metadata"] [("metadata", ["hello"])]
        Option.none).columns.map (fun c => (c.name, c.type)) =
      [("metadata", "VARCHAR(10)"), ("created_at", "TIMESTAMPTZ"),
        ("updated_at", "TIMESTAMPTZ")] ∧
    ¬ ∃ c ∈ (auto_detect_schema "t" "public" ["metadata"]
        [("metadata", ["hello"])] Option.none).columns,
      c.name = "metadata" ∧ c.type = "JSONB" := by
  refine ⟨by decide, by decide⟩


/-! ## `CSVImporter._create_insert_sql` (lines 360-427)

The emitted statement is modelled structurally.  An `upsert` value stands
for `INSERT INTO sch.tbl (columns) VALUES (...) ON CONFLICT (pk) DO UPDATE
SET c = EXCLUDED.c for each update column, updated_at = NOW()`; a
`plainInsert` for the bare parameterized `INSERT`.  The
`db_manager.get_table_schema` lookup is external I/O and enters as
`existing : Option (List Column)`, with `Option.none` modelling the
`except:` branch of a failed lookup (absent table). -/

inductive SqlStmt where
  | plainInsert (schemaName tableName : String) (columns : List String)
  | upsert (schemaName tableName : String) (columns : List String)
      (pk : String) (updateCols : List String)
  deriving DecidableEq, Repr

def SqlStmt.isUpsert : SqlStmt → Bool
  | .upsert .. => true
  | _ => false

/-- `"PRIMARY KEY" in str(c) or "UNIQUE" in str(c)`. -/
def constraintUnique (c : String) : Bool :=
  strContains c "PRIMARY KEY" || strContains c "UNIQUE"

/-- The `can_upsert` computation of `_create_insert_sql` (lines 366-392):
first matching schema column, then (only if it declares no uniqueness) the
first matching column of the existing table description. -/
def can_upsert (schema : Schema) (primary_key : String)
    (existing : Option (List Column)) : Bool :=
  match schema.columns.find? (fun c => c.name = primary_key) with
  | Option.none => false
  | some pkCol =>
    if pkCol.constraints.any constraintUnique then true
    else
      match existing with
      | Option.none => false
      | some cols =>
        match cols.find? (fun c => c.name = primary_key) with
        | some ec => ec.constraints.any constraintUnique
        | Option.none => false

def create_insert_sql (schema : Schema) (primary_key : Option String)
    (existing : Option (List Column)) : SqlStmt × List String :=
  match primary_key with
  | some pk =>
    if can_upsert schema pk existing then
      (.upsert schema.schemaName schema.tableName
        (schema.columns.map (fun c => c.name)) pk
        ((schema.columns.map (fun c => c.name)).filter
          (fun c => !(c = pk || c = "created_at" || c = "updated_at"))),
       schema.columns.map (fun c => c.name))
    else
      (.plainInsert schema.schemaName schema.tableName
        (schema.columns.map (fun c => c.name)),
       schema.columns.map (fun c => c.name))
  | Option.none =>
    (.plainInsert schema.schemaName schema.tableName
      (schema.columns.map (fun c => c.name)),
     schema.columns.map (fun c => c.name))

/-! ### Claim C5 -/

/-- The claim's uniqueness guarantee, written from the spec's words: the
key column is present in the in-memory schema and some column of that name
declares a `PRIMARY KEY`/`UNIQUE` constraint there — or, failing that, on
the existing table description. -/
def uniquenessEstablished (schema : Schema) (k : String)
    (existing : Option (List Column)) : Prop :=
  (∃ c ∈ schema.columns, c.name = k) ∧
  ((∃ c ∈ schema.columns, c.name = k ∧
      ∃ w ∈ c.constraints, constraintUnique w = true) ∨
   (∃ cols, existing = some cols ∧ ∃ c ∈ cols, c.name = k ∧
      ∃ w ∈ c.constraints, constraintUnique w = true))

/-- With duplicate-free column names, the code's first-match scan agrees
with the spec's existential reading. -/
theorem can_upsert_iff (schema : Schema) (k : String)
    (existing : Option (List Column))
    (hnd : (schema.columns.map (fun c => c.name)).Nodup)
    (hnd2 : ∀ cols, existing = some cols →
      (cols.map (fun c => c.name)).Nodup) :
    can_upsert schema k existing = true ↔
      uniquenessEstablished schema k existing := by
  unfold can_upsert uniquenessEstablished
  rcases hf : schema.columns.find? (fun c => c.name = k) with _ | pkCol
  · simp only [hf]
    constructor
    · intro h; cases h
    · rintro ⟨⟨c, hc, hname⟩, _⟩
      have : (schema.columns.find? (fun c => c.name = k)).isSome := by
        rw [List.find?_isSome]
        exact ⟨c, hc, by simp [hname]⟩
      rw [hf] at this
      cases this
  · simp only [hf]
    have hpkmem : pkCol ∈ schema.columns := List.mem_of_find?_eq_some hf
    have hpkname : pkCol.name = k := by
      have := List.find?_some hf
      simpa using this
    have huniq : ∀ c ∈ schema.columns, c.name = k → c = pkCol := by
      intro c hc hname
      exact List.inj_on_of_nodup_map hnd hc hpkmem (by rw [hname, hpkname])
    by_cases hdecl : pkCol.constraints.any constraintUnique = true
    · rw [if_pos hdecl]
      simp only [true_iff]
      rcases List.any_eq_true.mp hdecl with ⟨w, hw, hwu⟩
      exact ⟨⟨pkCol, hpkmem, hpkname⟩,
        Or.inl ⟨pkCol, hpkmem, hpkname, w, hw, hwu⟩⟩
    · rw [if_neg hdecl]
      rcases existing with _ | cols
      · constructor
        · intro h; cases h
        · rintro ⟨_, hdisj | hdisj⟩
          · rcases hdisj with ⟨c, hc, hname, w, hw, hwu⟩
            have hcpk := huniq c hc hname
            subst hcpk
            exact absurd (List.any_eq_true.mpr ⟨w, hw, hwu⟩) hdecl
          · rcases hdisj with ⟨cols, hcols, _⟩
            cases hcols
      · have hnd2' := hnd2 cols rfl
        have huniq2 : ∀ ec, cols.find? (fun c => c.name = k) = some ec →
            ∀ c ∈ cols, c.name = k → c = ec := by
          intro ec hec c hc hname
          exact List.inj_on_of_nodup_map hnd2' hc
            (List.mem_of_find?_eq_some hec)
            (by
              have := List.find?_some hec
              simp only [decide_eq_true_eq] at this
              rw [hname, this])
        rcases hfe : cols.find? (fun c => c.name = k) with _ | ec
        · simp only [hfe]
          constructor
          · intro h; cases h
          · rintro ⟨_, hdisj | hdisj⟩
            · rcases hdisj with ⟨c, hc, hname, w, hw, hwu⟩
              have hcpk := huniq c hc hname
              subst hcpk
              exact absurd (List.any_eq_true.mpr ⟨w, hw, hwu⟩) hdecl
            · rcases hdisj with ⟨cols', hcols', c, hc, hname, w, hw, hwu⟩
              obtain rfl := Option.some.inj hcols'
              have : (cols.find? (fun c => c.name = k)).isSome := by
                rw [List.find?_isSome]
                exact ⟨c, hc, by simp [hname]⟩
              rw [hfe] at this
              cases this
        · simp only [hfe]
          have hecmem : ec ∈ cols := List.mem_of_find?_eq_some hfe
          have hecname : ec.name = k := by
            have := List.find?_some hfe
            simpa using this
          constructor
          · intro h
            rcases List.any_eq_true.mp h with ⟨w, hw, hwu⟩
            exact ⟨⟨pkCol, hpkmem, hpkname⟩,
              Or.inr ⟨cols, rfl, ec, hecmem, hecname, w, hw, hwu⟩⟩
          · rintro ⟨_, hdisj | hdisj⟩
            · rcases hdisj with ⟨c, hc, hname, w, hw, hwu⟩
              have hcpk := huniq c hc hname
              subst hcpk
              exact absurd (List.any_eq_true.mpr ⟨w, hw, hwu⟩) hdecl
            · rcases hdisj with ⟨cols', hcols', c, hc, hname, w, hw, hwu⟩
              obtain rfl := Option.some.inj hcols'
              have hcec := huniq2 ec hfe c hc hname
              subst hcec
              exact List.any_eq_true.mpr ⟨w, hw, hwu⟩

/-- C5: the planner emits an upsert iff a primary key is given and a
uniqueness guarantee for that key column can be established on the
in-memory schema or, failing that, on the existing table description; in
every other case it emits a plain parameterized INSERT over all columns.
The parameter order is the schema's column list in both cases, and the
upsert updates exactly the non-key, non-timestamp columns (forcing
`updated_at = NOW()` in the statement text).  Stated for schemas and table
descriptions with duplicate-free column names. -/
theorem C5_upsert_plan (schema : Schema) (primary_key : Option String)
    (existing : Option (List Column))
    (hnd : (schema.columns.map (fun c => c.name)).Nodup)
    (hnd2 : ∀ cols, existing = some cols →
      (cols.map (fun c => c.name)).Nodup) :
    ((create_insert_sql schema primary_key existing).2
      = schema.columns.map (fun c => c.name)) ∧
    ((create_insert_sql schema primary_key existing).1.isUpsert = true ↔
      ∃ k, primary_key = some k ∧ uniquenessEstablished schema k existing) ∧
    (∀ k, primary_key = some k → uniquenessEstablished schema k existing →
      (create_insert_sql schema primary_key existing).1
        = .upsert schema.schemaName schema.tableName
          (schema.columns.map (fun c => c.name)) k
          ((schema.columns.map (fun c => c.name)).filter
            (fun c => !(c = k || c = "created_at" || c = "updated_at")))) ∧
    ((¬ ∃ k, primary_key = some k ∧ uniquenessEstablished schema k existing) →
      (create_insert_sql schema primary_key existing).1
        = .plainInsert schema.schemaName schema.tableName
          (schema.columns.map (fun c => c.name))) := by
  rcases primary_key with _ | pk
  · refine ⟨rfl, ?_, ?_, ?_⟩
    · simp [create_insert_sql, SqlStmt.isUpsert]
    · intro k hk; cases hk
    · intro _; rfl
  · by_cases hcu : can_upsert schema pk existing = true
    · have hiff := (can_upsert_iff schema pk existing hnd hnd2).mp hcu
      refine ⟨?_, ?_, ?_, ?_⟩
      · show (if can_upsert schema pk existing then _ else _ : SqlStmt × List String).2 = _
        rw [if_pos hcu]
      · show (if can_upsert schema pk existing then _ else _ : SqlStmt × List String).1.isUpsert
          = true ↔ _
        rw [if_pos hcu]
        simp only [SqlStmt.isUpsert, true_iff]
        exact ⟨pk, rfl, hiff⟩
      · intro k hk _
        obtain rfl := Option.some.inj hk
        show (if can_upsert schema pk existing then _ else _ : SqlStmt × List String).1 = _
        rw [if_pos hcu]
      · intro hne
        exact absurd ⟨pk, rfl, hiff⟩ hne
    · refine ⟨?_, ?_, ?_, ?_⟩
      · show (if can_upsert schema pk existing then _ else _ : SqlStmt × List String).2 = _
        rw [if_neg hcu]
      · show (if can_upsert schema pk existing then _ else _ : SqlStmt × List String).1.isUpsert
          = true ↔ _
        rw [if_neg hcu]
        refine iff_of_false (by simp [SqlStmt.isUpsert]) ?_
        rintro ⟨k, hk, hu⟩
        obtain rfl := Option.some.inj hk
        exact hcu ((can_upsert_iff schema pk existing hnd hnd2).mpr hu)
      · intro k hk hu
        obtain rfl := Option.some.inj hk
        exact absurd ((can_upsert_iff schema pk existing hnd hnd2).mpr hu) hcu
      · intro _
        show (if can_upsert schema pk existing then _ else _ : SqlStmt × List String).1 = _
        rw [if_neg hcu]

/-- C5 witness: scenario F — `primaryKey="isbn"` requested, schema
declares no uniqueness on `isbn`, and the existing table description shows
no unique constraint there either: the planner emits a plain INSERT. -/
theorem C5_upsert_plan_witness :
    (create_insert_sql
        ⟨"books", "public", [⟨"isbn", "TEXT", [], Option.none⟩]⟩
        (some "isbn")
        (some [⟨"isbn", "TEXT", ["NOT NULL"], Option.none⟩])).1
      = .plainInsert "public" "books" ["isbn"] :=
  (C5_upsert_plan ⟨"books", "public", [⟨"isbn", "TEXT", [], Option.none⟩]⟩
      (some "isbn") (some [⟨"isbn", "TEXT", ["NOT NULL"], Option.none⟩])
      (by decide) (by intro cols h; cases h; decide)).2.2.2
    (by
      rintro ⟨k, hk, ⟨_, hdisj | hdisj⟩⟩ <;> obtain rfl := (Option.some.inj hk).symm
      · rcases hdisj with ⟨c, hc, hname, w, hw, hwu⟩
        simp only [List.mem_singleton] at hc
        subst hc
        cases hw
      · rcases hdisj with ⟨cols, hcols, c, hc, hname, w, hw, hwu⟩
        obtain rfl := Option.some.inj hcols
        simp only [List.mem_singleton] at hc
        subst hc
        simp only [List.mem_singleton] at hw
        subst hw
        revert hwu
        decide)


/-! ## `CSVImporter._process_csv_data` (lines 279-329)

A `csv.DictReader` row enters the model as its named fields in header
order (a missing trailing cell is `Option.none`, matching `restval=None`)
plus the optional restkey entry (dict key `None`, a list of the extra
cells, present only when the physical row is longer than the header).
Python dicts become association lists with the insert-or-overwrite
`dinsert`, which preserves first-insertion order exactly like a dict.
The single pass that fills `record` and `metadata` updates two independent
accumulators, modelled as the two folds `rowRecord` and `rowExtras`.
The only statement of the per-row `try` block that can raise is
`value.strip()` on the restkey's list value (`convert_value` and
`json.dumps` are total), so a row errs exactly when it has extra cells;
`str(e)` is then `'list' object has no attribute 'strip'`. -/

structure PyRow where
  named : List (String × Option String)
  rest : Option (List String)
  deriving DecidableEq, Repr

/-- Python dict assignment `d[k] = v` on an association list: overwrite in
place or append. -/
def dinsert (k : String) (v : α) : List (String × α) → List (String × α)
  | [] => [(k, v)]
  | (k', v') :: tl => if k' = k then (k, v) :: tl else (k', v') :: dinsert k v tl

/-- A converted record: column name to converted value. -/
abbrev Record := List (String × Val)

/-- `name_mapping[original] = normalized` built over the schema columns
(`col.get("original_name", col["name"])`). -/
def name_mapping (schema : Schema) : List (String × String) :=
  schema.columns.foldl
    (fun m c => dinsert (c.originalName.getD c.name) c.name m) []

/-- `type_mapping[normalized] = col["type"]` built over the schema
columns. -/
def type_mapping (schema : Schema) : List (String × String) :=
  schema.columns.foldl (fun m c => dinsert c.name c.type m) []

/-- The `metadata` dict accumulated from the fields whose header is
unmapped and whose value is a non-blank string. -/
def rowExtras (nameMap : List (String × String))
    (named : List (String × Option String)) : List (String × String) :=
  named.foldl
    (fun m kv =>
      if (nameMap.lookup kv.1).isSome then m
      else
        match kv.2 with
        | some v => if pyStrip v = "" then m else dinsert kv.1 (pyStrip v) m
        | Option.none => m) []

/-- The `record` dict accumulated from the mapped fields (the
`type_mapping[normalized_name]` lookup cannot miss, since every mapped
normalized name is a schema column name; the default is dead code kept
for totality). -/
def rowRecord (nameMap typeMap : List (String × String))
    (named : List (String × Option String)) : Record :=
  named.foldl
    (fun r kv =>
      match nameMap.lookup kv.1 with
      | some norm =>
        dinsert norm (convert_value kv.2 ((typeMap.lookup norm).getD "")) r
      | Option.none => r) []

/-- `if metadata: record["metadata"] = json.dumps(metadata)`. -/
def addMetadata (record0 : Record) (metadata : List (String × String)) : Record :=
  if metadata = [] then record0
  else dinsert "metadata" (.str (jsonDumpsObj metadata)) record0

/-- `if "created_at" not in record: record["created_at"] = now`. -/
def addCreated (now : Val) (r : Record) : Record :=
  if (r.lookup "created_at").isSome then r else dinsert "created_at" now r

/-- `if "updated_at" not in record: record["updated_at"] = now`. -/
def addUpdated (now : Val) (r : Record) : Record :=
  if (r.lookup "updated_at").isSome then r else dinsert "updated_at" now r

/-- The `created_at`/`updated_at` defaults (lines 318-322). -/
def addTimestamps (now : Val) (r : Record) : Record :=
  addUpdated now (addCreated now r)

/-- The record assembled from one row's named fields. -/
def buildRow (nameMap typeMap : List (String × String)) (now : Val)
    (named : List (String × Option String)) : Record :=
  addTimestamps now
    (addMetadata (rowRecord nameMap typeMap named) (rowExtras nameMap named))

/-- One iteration of the row loop body (lines 299-327), as an
`Except`-valued function: the restkey's list value raises
`AttributeError` on `.strip()` when non-empty, otherwise the record is
assembled and the timestamp defaults applied. -/
def process_row (nameMap typeMap : List (String × String)) (now : Val)
    (row : PyRow) : Except String Record :=
  match row.rest with
  | some (_ :: _) => .error "'list' object has no attribute 'strip'"
  | _ => .ok (buildRow nameMap typeMap now row.named)

/-- The enumerated row loop (`enumerate(reader, start=2)`): each row
contributes one record or one `"Row <i>: <cause>"` error string. -/
def processCsvGo (nameMap typeMap : List (String × String)) (now : Val) :
    Nat → List PyRow → List Record × List String
  | _, [] => ([], [])
  | i, row :: tl =>
    let rest := processCsvGo nameMap typeMap now (i + 1) tl
    match process_row nameMap typeMap now row with
    | .ok r => (r :: rest.1, rest.2)
    | .error e => (rest.1, ("Row " ++ natRepr i ++ ": " ++ e) :: rest.2)

def process_csv_data (schema : Schema) (now : Val) (rows : List PyRow) :
    List Record × List String :=
  processCsvGo (name_mapping schema) (type_mapping schema) now 2 rows

/-! ## `CSVImporter._import_records` (lines 331-358)

`executemany` is external I/O; under the all-writes-succeed assumption of
claim C10, `_import_records` returns the sum of the batch sizes produced
by `range(0, len(records), batch_size)`.  (A non-positive `batch_size`
raises in Python; the model is only used under `0 < batch_size`.) -/

def batchesF : Nat → Nat → List α → List (List α)
  | 0, _, _ => []
  | _, _, [] => []
  | fuel + 1, bs, l => l.take bs :: batchesF fuel bs (l.drop bs)

/-- The batch slices `records[i:i+batch_size]`. -/
def batches (bs : Nat) (l : List α) : List (List α) := batchesF l.length bs l

/-- The imported-row count when every batch write succeeds. -/
def import_records_count (records : List Record) (batch_size : Nat) : Nat :=
  ((batches batch_size records).map List.length).sum

/-- The `(imported_count, error_count)` pair of an `ImportResult` under
the all-writes-succeed assumption, following `import_csv` lines 111-127
(`imported_count` stays `0` when no records were produced). -/
def import_csv_counts (schema : Schema) (now : Val) (rows : List PyRow)
    (batch_size : Nat) : Nat × Nat :=
  ((if (process_csv_data schema now rows).1 ≠ []
    then import_records_count (process_csv_data schema now rows).1 batch_size
    else 0),
   (process_csv_data schema now rows).2.length)


/-! ### Claim C7 -/

/-- The row loop is a per-row map: each enumerated row contributes its
`ok` record or its `"Row <i>: <cause>"` error, independently of the other
rows. -/
theorem processCsvGo_eq (nameMap typeMap : List (String × String)) (now : Val) :
    ∀ (i : Nat) (rows : List PyRow),
      processCsvGo nameMap typeMap now i rows =
        (rows.filterMap (fun r => (process_row nameMap typeMap now r).toOption),
         ((List.range' i rows.length).zip rows).filterMap (fun p =>
           match process_row nameMap typeMap now p.2 with
           | .error e => some ("Row " ++ natRepr p.1 ++ ": " ++ e)
           | .ok _ => Option.none)) := by
  intro i rows
  induction rows generalizing i with
  | nil => rfl
  | cons row tl ih =>
    show (match process_row nameMap typeMap now row with
      | .ok r => (r :: (processCsvGo nameMap typeMap now (i + 1) tl).1,
          (processCsvGo nameMap typeMap now (i + 1) tl).2)
      | .error e => ((processCsvGo nameMap typeMap now (i + 1) tl).1,
          ("Row " ++ natRepr i ++ ": " ++ e) ::
            (processCsvGo nameMap typeMap now (i + 1) tl).2)) = _
    rw [ih (i + 1)]
    rw [List.length_cons, List.range'_succ, List.zip_cons_cons]
    rcases hp : process_row nameMap typeMap now row with e | r
    · simp [List.filterMap_cons, hp, Except.toOption]
    · simp [List.filterMap_cons, hp, Except.toOption]

/-- C7: a failure while converting one row is caught individually — the
row is dropped, the error string `"Row <n>: <cause>"` is appended (rows
are enumerated from 2, the header counting as line 1), and every other
row is processed independently, so no single malformed row aborts the
rest: `_process_csv_data` equals the pair of per-row filterMaps. -/
theorem C7_row_isolation (schema : Schema) (now : Val) (rows : List PyRow) :
    process_csv_data schema now rows =
      (rows.filterMap (fun r =>
        (process_row (name_mapping schema) (type_mapping schema) now r).toOption),
       ((List.range' 2 rows.length).zip rows).filterMap (fun p =>
         match process_row (name_mapping schema) (type_mapping schema) now p.2 with
         | .error e => some ("Row " ++ natRepr p.1 ++ ": " ++ e)
         | .ok _ => Option.none)) :=
  processCsvGo_eq (name_mapping schema) (type_mapping schema) now 2 rows

/-! ### Claim C10 -/

/-- Each row lands in exactly one of the two outputs. -/
theorem processCsvGo_length (nameMap typeMap : List (String × String))
    (now : Val) :
    ∀ (i : Nat) (rows : List PyRow),
      (processCsvGo nameMap typeMap now i rows).1.length +
        (processCsvGo nameMap typeMap now i rows).2.length = rows.length := by
  intro i rows
  induction rows generalizing i with
  | nil => rfl
  | cons row tl ih =>
    have key : processCsvGo nameMap typeMap now i (row :: tl)
        = match process_row nameMap typeMap now row with
          | .ok r => (r :: (processCsvGo nameMap typeMap now (i + 1) tl).1,
              (processCsvGo nameMap typeMap now (i + 1) tl).2)
          | .error e => ((processCsvGo nameMap typeMap now (i + 1) tl).1,
              ("Row " ++ natRepr i ++ ": " ++ e) ::
                (processCsvGo nameMap typeMap now (i + 1) tl).2) := rfl
    rw [key]
    rcases hp : process_row nameMap typeMap now row with e | r
    · show (processCsvGo nameMap typeMap now (i + 1) tl).1.length +
        (("Row " ++ natRepr i ++ ": " ++ e) ::
          (processCsvGo nameMap typeMap now (i + 1) tl).2).length = (row :: tl).length
      rw [List.length_cons, List.length_cons]
      have h := ih (i + 1)
      omega
    · show (r :: (processCsvGo nameMap typeMap now (i + 1) tl).1).length +
        (processCsvGo nameMap typeMap now (i + 1) tl).2.length = (row :: tl).length
      rw [List.length_cons, List.length_cons]
      have h := ih (i + 1)
      omega

/-- Batch slicing loses no record. -/
theorem batchesF_sum {α : Type} :
    ∀ (fuel bs : Nat) (l : List α), 0 < bs → l.length ≤ fuel →
      ((batchesF fuel bs l).map List.length).sum = l.length := by
  intro fuel
  induction fuel with
  | zero =>
    intro bs l _ hlen
    have : l = [] := List.eq_nil_of_length_eq_zero (Nat.le_zero.mp hlen)
    subst this
    rfl
  | succ f ih =>
    intro bs l hbs hlen
    rcases l with _ | ⟨x, xs⟩
    · rfl
    · show ((x :: xs).take bs).length +
        ((batchesF f bs ((x :: xs).drop bs)).map List.length).sum = _
      rw [ih bs ((x :: xs).drop bs) hbs
        (by simp only [List.length_drop, List.length_cons] at *; omega)]
      simp only [List.length_take, List.length_drop, List.length_cons]
      omega

/-- C10: every data row contributes to exactly one output; when every
batch write succeeds (and the batch size is positive), the import result
satisfies `imported_count + error_count = number of data rows`. -/
theorem C10_row_accounting (schema : Schema) (now : Val) (rows : List PyRow)
    (batch_size : Nat) (hbs : 0 < batch_size) :
    (import_csv_counts schema now rows batch_size).1 +
      (import_csv_counts schema now rows batch_size).2 = rows.length := by
  unfold import_csv_counts
  have hlen := processCsvGo_length (name_mapping schema) (type_mapping schema)
    now 2 rows
  by_cases hrec : (process_csv_data schema now rows).1 = []
  · rw [if_neg (by simp [hrec])]
    rw [← hlen]
    show 0 + _ = (process_csv_data schema now rows).1.length + _
    rw [hrec]
    rfl
  · rw [if_pos hrec]
    unfold import_records_count batches
    rw [batchesF_sum _ batch_size _ hbs (Nat.le_refl _)]
    exact hlen

/-- C10 witness: three data rows, one ragged (dropped with an error), a
batch size of 2 — two imported plus one error equals three rows. -/
theorem C10_row_accounting_witness :
    (import_csv_counts ⟨"t", "public", [⟨"id", "INTEGER", [], some "id"⟩]⟩
        Val.none
        [⟨[("id", some "1")], some ["x"]⟩,
         ⟨[("id", some "2")], Option.none⟩,
         ⟨[("id", some "3")], Option.none⟩] 2).1 +
      (import_csv_counts ⟨"t", "public", [⟨"id", "INTEGER", [], some "id"⟩]⟩
        Val.none
        [⟨[("id", some "1")], some ["x"]⟩,
         ⟨[("id", some "2")], Option.none⟩,
         ⟨[("id", some "3")], Option.none⟩] 2).2 = 3 :=
  C10_row_accounting ⟨"t", "public", [⟨"id", "INTEGER", [], some "id"⟩]⟩
    Val.none
    [⟨[("id", some "1")], some ["x"]⟩,
     ⟨[("id", some "2")], Option.none⟩,
     ⟨[("id", some "3")], Option.none⟩] 2 (by decide)


/-! ### Claim C6 -/

theorem mem_dinsert {α : Type} {k : String} {v : α} :
    ∀ {m : List (String × α)} {kv : String × α},
      kv ∈ dinsert k v m → kv = (k, v) ∨ kv ∈ m := by
  intro m
  induction m with
  | nil =>
    intro kv h
    unfold dinsert at h
    simpa using h
  | cons p tl ih =>
    intro kv h
    rcases p with ⟨k0, v0⟩
    unfold dinsert at h
    by_cases hk : k0 = k
    · rw [if_pos hk] at h
      rcases List.mem_cons.mp h with h1 | h1
      · exact Or.inl h1
      · exact Or.inr (List.mem_cons_of_mem _ h1)
    · rw [if_neg hk] at h
      rcases List.mem_cons.mp h with h1 | h1
      · exact Or.inr (h1 ▸ List.mem_cons_self _ _)
      · rcases ih h1 with h2 | h2
        · exact Or.inl h2
        · exact Or.inr (List.mem_cons_of_mem _ h2)

theorem lookup_dinsert_self {α : Type} (k : String) (v : α) :
    ∀ (m : List (String × α)), (dinsert k v m).lookup k = some v := by
  intro m
  induction m with
  | nil => simp [dinsert]
  | cons p tl ih =>
    rcases p with ⟨k0, v0⟩
    unfold dinsert
    by_cases hk : k0 = k
    · rw [if_pos hk]
      simp
    · rw [if_neg hk]
      rw [List.lookup_cons]
      have : (k == k0) = false := beq_eq_false_iff_ne.mpr (Ne.symm hk)
      rw [this]
      exact ih

theorem lookup_dinsert_ne {α : Type} {k k' : String} (h : k' ≠ k) (v : α) :
    ∀ (m : List (String × α)), (dinsert k v m).lookup k' = m.lookup k' := by
  intro m
  induction m with
  | nil =>
    unfold dinsert
    simp [List.lookup_cons, beq_eq_false_iff_ne.mpr h]
  | cons p tl ih =>
    rcases p with ⟨k0, v0⟩
    unfold dinsert
    by_cases hk : k0 = k
    · rw [if_pos hk]
      rw [List.lookup_cons, List.lookup_cons]
      rw [beq_eq_false_iff_ne.mpr h, hk, beq_eq_false_iff_ne.mpr h]
    · rw [if_neg hk]
      rw [List.lookup_cons, List.lookup_cons]
      rcases hbeq : (k' == k0) with _ | _
      · exact ih
      · rfl

theorem lookup_mem {α : Type} :
    ∀ {m : List (String × α)} {k : String} {v : α},
      m.lookup k = some v → (k, v) ∈ m := by
  intro m
  induction m with
  | nil => intro k v h; cases h
  | cons p tl ih =>
    intro k v h
    rcases p with ⟨k0, v0⟩
    rw [List.lookup_cons] at h
    rcases hbeq : (k == k0) with _ | _
    · rw [hbeq] at h
      exact List.mem_cons_of_mem _ (ih h)
    · rw [hbeq] at h
      have hk : k = k0 := beq_iff_eq.mp hbeq
      have hv : v0 = v := Option.some.inj h
      rw [hk, hv]
      exact List.mem_cons_self _ _

/-- Entries of a `dinsert`-fold over schema columns come from the
accumulator or from a column. -/
theorem mem_foldl_dinsert {γ : Type} (key : Column → String) (val : Column → γ) :
    ∀ (cols : List Column) (m0 : List (String × γ)) (kv : String × γ),
      kv ∈ cols.foldl (fun m c => dinsert (key c) (val c) m) m0 →
      kv ∈ m0 ∨ ∃ c ∈ cols, kv = (key c, val c) := by
  intro cols
  induction cols with
  | nil => intro m0 kv h; exact Or.inl h
  | cons c tl ih =>
    intro m0 kv h
    rw [List.foldl_cons] at h
    rcases ih _ kv h with h1 | ⟨c', hc', h2⟩
    · rcases mem_dinsert h1 with h2 | h2
      · exact Or.inr ⟨c, List.mem_cons_self _ _, h2⟩
      · exact Or.inl h2
    · exact Or.inr ⟨c', List.mem_cons_of_mem _ hc', h2⟩

/-- Every target of `name_mapping` is a schema column name. -/
theorem name_mapping_val (schema : Schema) :
    ∀ kv ∈ name_mapping schema, ∃ c ∈ schema.columns, kv.2 = c.name := by
  intro kv h
  rcases mem_foldl_dinsert (fun c => c.originalName.getD c.name) (fun c => c.name)
      schema.columns [] kv h with h1 | ⟨c, hc, rfl⟩
  · cases h1
  · exact ⟨c, hc, rfl⟩

/-- Keys of `rowRecord` are targets of the name mapping. -/
theorem mem_rowRecord (nm tm : List (String × String)) :
    ∀ (named : List (String × Option String)) (r0 : Record) (kv : String × Val),
      kv ∈ named.foldl
        (fun r kv' =>
          match nm.lookup kv'.1 with
          | some norm =>
            dinsert norm (convert_value kv'.2 ((tm.lookup norm).getD "")) r
          | Option.none => r) r0 →
      kv ∈ r0 ∨ ∃ p ∈ nm, kv.1 = p.2 := by
  intro named
  induction named with
  | nil => intro r0 kv h; exact Or.inl h
  | cons f tl ih =>
    intro r0 kv h
    rw [List.foldl_cons] at h
    rcases ih _ kv h with h1 | h1
    · rcases hl : nm.lookup f.1 with _ | norm
      · rw [hl] at h1
        exact Or.inl h1
      · rw [hl] at h1
        rcases mem_dinsert h1 with h2 | h2
        · right
          exact ⟨(f.1, norm), lookup_mem hl, by rw [h2]⟩
        · exact Or.inl h2
    · exact Or.inr h1

theorem mem_addMetadata {r0 : Record} {md : List (String × String)}
    {kv : String × Val} (h : kv ∈ addMetadata r0 md) :
    kv ∈ r0 ∨ kv.1 = "metadata" := by
  unfold addMetadata at h
  by_cases hmd : md = []
  · rw [if_pos hmd] at h
    exact Or.inl h
  · rw [if_neg hmd] at h
    rcases mem_dinsert h with h1 | h1
    · exact Or.inr (by rw [h1])
    · exact Or.inl h1

theorem mem_addCreated {now : Val} {r : Record} {kv : String × Val}
    (h : kv ∈ addCreated now r) : kv ∈ r ∨ kv.1 = "created_at" := by
  unfold addCreated at h
  by_cases hc : (r.lookup "created_at").isSome
  · rw [if_pos hc] at h
    exact Or.inl h
  · rw [if_neg hc] at h
    rcases mem_dinsert h with h1 | h1
    · exact Or.inr (by rw [h1])
    · exact Or.inl h1

theorem mem_addUpdated {now : Val} {r : Record} {kv : String × Val}
    (h : kv ∈ addUpdated now r) : kv ∈ r ∨ kv.1 = "updated_at" := by
  unfold addUpdated at h
  by_cases hc : (r.lookup "updated_at").isSome
  · rw [if_pos hc] at h
    exact Or.inl h
  · rw [if_neg hc] at h
    rcases mem_dinsert h with h1 | h1
    · exact Or.inr (by rw [h1])
    · exact Or.inl h1

theorem lookup_addCreated_metadata (now : Val) (r : Record) :
    (addCreated now r).lookup "metadata" = r.lookup "metadata" := by
  unfold addCreated
  by_cases hc : (r.lookup "created_at").isSome
  · rw [if_pos hc]
  · rw [if_neg hc]
    exact lookup_dinsert_ne (by decide) now r

theorem lookup_addUpdated_metadata (now : Val) (r : Record) :
    (addUpdated now r).lookup "metadata" = r.lookup "metadata" := by
  unfold addUpdated
  by_cases hc : (r.lookup "updated_at").isSome
  · rw [if_pos hc]
  · rw [if_neg hc]
    exact lookup_dinsert_ne (by decide) now r

/-- Keys of an assembled row record. -/
theorem buildRow_keys (nm tm : List (String × String)) (now : Val)
    (named : List (String × Option String)) (kv : String × Val)
    (h : kv ∈ buildRow nm tm now named) :
    (∃ p ∈ nm, kv.1 = p.2) ∨ kv.1 = "metadata" ∨ kv.1 = "created_at" ∨
      kv.1 = "updated_at" := by
  unfold buildRow addTimestamps at h
  rcases mem_addUpdated h with h1 | h1
  · rcases mem_addCreated h1 with h2 | h2
    · rcases mem_addMetadata h2 with h3 | h3
      · rcases mem_rowRecord nm tm named [] kv h3 with h4 | h4
        · cases h4
        · exact Or.inl h4
      · exact Or.inr (Or.inl h3)
    · exact Or.inr (Or.inr (Or.inl h2))
  · exact Or.inr (Or.inr (Or.inr h1))

/-- The non-blank unmatched fields land verbatim, JSON-encoded, in the
`metadata` entry of the assembled record. -/
theorem buildRow_metadata (nm tm : List (String × String)) (now : Val)
    (named : List (String × Option String))
    (hne : rowExtras nm named ≠ []) :
    (buildRow nm tm now named).lookup "metadata" =
      some (.str (jsonDumpsObj (rowExtras nm named))) := by
  unfold buildRow addTimestamps
  rw [lookup_addUpdated_metadata, lookup_addCreated_metadata]
  unfold addMetadata
  rw [if_neg hne]
  exact lookup_dinsert_self _ _ _

/-- A successfully processed row yields the assembled record. -/
theorem process_row_ok {nm tm : List (String × String)} {now : Val}
    {row : PyRow} {rec : Record}
    (h : process_row nm tm now row = .ok rec) :
    rec = buildRow nm tm now row.named := by
  unfold process_row at h
  rcases row with ⟨named, rest⟩
  rcases rest with _ | lst
  · exact (Except.ok.inj h).symm
  · rcases lst with _ | ⟨x, xs⟩
    · exact (Except.ok.inj h).symm
    · cases h

/-- C6 (amended): every key of a produced record is a column name of the
owning schema (given the three bookkeeping columns, which both
construction paths guarantee), and every *non-blank* CSV field whose
header matches no schema column is merged into the record's `metadata`
entry as a JSON object rather than becoming a record key — a
blank-valued extra field, however, is dropped entirely (see
`C6_counterexample`). -/
theorem C6_metadata_overflow (schema : Schema) (now : Val) (rows : List PyRow)
    (hm : "metadata" ∈ schema.columns.map (fun c => c.name))
    (hc : "created_at" ∈ schema.columns.map (fun c => c.name))
    (hu : "updated_at" ∈ schema.columns.map (fun c => c.name)) :
    (∀ rec ∈ (process_csv_data schema now rows).1,
      ∀ kv ∈ rec, kv.1 ∈ schema.columns.map (fun c => c.name)) ∧
    (∀ (row : PyRow) (rec : Record),
      process_row (name_mapping schema) (type_mapping schema) now row = .ok rec →
      rowExtras (name_mapping schema) row.named ≠ [] →
      rec.lookup "metadata" =
        some (.str (jsonDumpsObj (rowExtras (name_mapping schema) row.named)))) := by
  constructor
  · intro rec hrec kv hkv
    rw [show process_csv_data schema now rows
        = processCsvGo (name_mapping schema) (type_mapping schema) now 2 rows
      from rfl, processCsvGo_eq] at hrec
    rcases List.mem_filterMap.mp hrec with ⟨row, _, hopt⟩
    have hok : process_row (name_mapping schema) (type_mapping schema) now row
        = .ok rec := by
      rcases hx : process_row (name_mapping schema) (type_mapping schema) now row
        with e | r
      · rw [hx] at hopt; cases hopt
      · rw [hx] at hopt
        rw [show Except.toOption (Except.ok r : Except String Record) = some r
          from rfl] at hopt
        rw [Option.some.inj hopt]
    rw [process_row_ok hok] at hkv
    rcases buildRow_keys _ _ _ _ kv hkv with h1 | h1 | h1 | h1
    · rcases h1 with ⟨p, hp, hkey⟩
      rcases name_mapping_val schema p hp with ⟨c, hcmem, hval⟩
      rw [hkey, hval]
      exact List.mem_map.mpr ⟨c, hcmem, rfl⟩
    · rw [h1]; exact hm
    · rw [h1]; exact hc
    · rw [h1]; exact hu
  · intro row rec hok hne
    rw [process_row_ok hok]
    exact buildRow_metadata _ _ _ _ hne

/-- C6 witness: the theorem applied to a concrete row with the extra
non-blank header `notes="hi"`: its record's `metadata` entry is the JSON
object `{"notes": "hi"}`. -/
theorem C6_metadata_overflow_witness :
    ([("id", Val.int 1), ("metadata", Val.str "\x7b\"notes\": \"hi\"\x7d"),
        ("created_at", Val.none), ("updated_at", Val.none)] : Record).lookup
      "metadata" = some (Val.str "\x7b\"notes\": \"hi\"\x7d") := by
  have happ := (C6_metadata_overflow
    ⟨"t", "public",
      [⟨"id", "INTEGER", [], some "id"⟩,
       ⟨"metadata", "JSONB", [], Option.none⟩,
       ⟨"created_at", "TIMESTAMPTZ", ["DEFAULT NOW()"], Option.none⟩,
       ⟨"updated_at", "TIMESTAMPTZ", ["DEFAULT NOW()"], Option.none⟩]⟩
    Val.none [] (by decide) (by decide) (by decide)).2
    ⟨[("id", some "1"), ("notes", some "hi")], Option.none⟩
    [("id", Val.int 1), ("metadata", Val.str "\x7b\"notes\": \"hi\"\x7d"),
     ("created_at", Val.none), ("updated_at", Val.none)]
    (by rfl) (by decide)
  rw [happ]
  decide

/-- C6 counterexample: a whitespace-valued extra field (`notes="   "`) is
*not* merged into `metadata` — the produced record has no `metadata`
entry at all, falsifying the claim's "every CSV field whose header
matches no schema column is merged". -/
theorem C6_counterexample :
    process_csv_data
      ⟨"t", "public",
        [⟨"id", "INTEGER", [], some "id"⟩,
         ⟨"metadata", "JSONB", [], Option.none⟩,
         ⟨"created_at", "TIMESTAMPTZ", ["DEFAULT NOW()"], Option.none⟩,
         ⟨"updated_at", "TIMESTAMPTZ", ["DEFAULT NOW()"], Option.none⟩]⟩
      Val.none
      [⟨[("id", some "1"), ("notes", some "   ")], Option.none⟩] =
    ([[("id", Val.int 1), ("created_at", Val.none), ("updated_at", Val.none)]],
     []) ∧
    ([("id", Val.int 1), ("created_at", Val.none),
        ("updated_at", Val.none)] : Record).lookup "metadata" = Option.none := by
  refine ⟨by decide, by decide⟩

end PGTools
